import Mathlib

/-!
Verification of the DESC-YGE compute pipeline and grid subsystem.

The Python source is shallowly embedded as follows.

* The per-node "data" dictionary of the compute pipeline
  (`desc/compute/compute_funs.py`) becomes an association list
  `Data K := List (String × Val K)` mapping quantity names to scalar or
  3-vector values over a linear ordered field `K`; assignment
  `data[key] = v` becomes a cons (`dset`), so lookups see the most recent
  write, exactly like a Python dict.  All pipeline formulas are per-node
  and pointwise, so one node is embedded; vectorisation over nodes is
  data-parallel and does not affect any claim below.

* External collaborators (Transform evaluation, profile evaluation,
  `jnp.sqrt`, the real cube root used through `** (1/3)`, the `data_index`
  registry) are parameters of the embedded functions; everything that is
  computed inside the repository's own code is transcribed from the source.

* Grid code (`desc/grid.py`) is embedded over an arbitrary
  `LinearOrderedField K` with the numeric constant `np.pi` as an explicit
  parameter `pi : K`, so theorems instantiate to `K = ℝ`, `pi = π`, while
  concrete witnesses run on `K = ℚ`.
-/

set_option maxHeartbeats 1000000
set_option linter.unusedSectionVars false

namespace DescSpec

variable {K : Type} [LinearOrderedField K]

/-- A 3-vector of field elements, the embedding of one row of an `(n,3)`
numpy array (one node's worth of a vector quantity). -/
structure V3 (K : Type) where
  x : K
  y : K
  z : K
deriving DecidableEq, Repr

/-- Batched cross product `jnp.cross` (compute_funs.py line 74), at one node. -/
def cross3 (a b : V3 K) : V3 K :=
  ⟨a.y * b.z - a.z * b.y, a.z * b.x - a.x * b.z, a.x * b.y - a.y * b.x⟩

/-- Batched dot product `dot` (compute_funs.py line 53), at one node. -/
def dot3 (a b : V3 K) : K :=
  a.x * b.x + a.y * b.y + a.z * b.z

/-- Scalar times vector (numpy broadcasting `c * v.T`). -/
def smul3 (c : K) (a : V3 K) : V3 K :=
  ⟨c * a.x, c * a.y, c * a.z⟩

/-- Componentwise vector division by a scalar (numpy `v.T / c`). -/
def vdiv3 (a : V3 K) (c : K) : V3 K :=
  ⟨a.x / c, a.y / c, a.z / c⟩

/-- Vector addition. -/
def vadd3 (a b : V3 K) : V3 K :=
  ⟨a.x + b.x, a.y + b.y, a.z + b.z⟩

/-- A value stored in the data dictionary: a scalar or a 3-vector. -/
inductive Val (K : Type) where
  | s : K → Val K
  | v : V3 K → Val K
deriving DecidableEq, Repr

/-- The compute pipeline's working dictionary, at one node: quantity name
to value.  Later writes shadow earlier ones, like Python dict assignment. -/
def Data (K : Type) : Type := List (String × Val K)

/-- Dictionary write `data[key] = value`. -/
def dset (d : Data K) (k : String) (x : Val K) : Data K := (k, x) :: d

/-- Dictionary lookup, returning the most recent binding. -/
def dlookup : Data K → String → Option (Val K)
  | [], _ => none
  | (k, x) :: rest, key => if k = key then some x else dlookup rest key

/-- Membership test `key in data`. -/
def dmem (d : Data K) (k : String) : Bool := (dlookup d k).isSome

/-- Read a scalar entry (0 when absent or a vector; the pipeline's
structure guarantees the defaults are never hit on the paths proved). -/
def dgetS (d : Data K) (k : String) : K :=
  match dlookup d k with
  | some (.s a) => a
  | _ => 0

/-- Read a vector entry. -/
def dgetV (d : Data K) (k : String) : V3 K :=
  match dlookup d k with
  | some (.v a) => a
  | _ => ⟨0, 0, 0⟩

/-- Guarded write: the source pattern
`if check_derivs(key, ...): data[key] = value`. -/
def dsetIf (c : Bool) (d : Data K) (k : String) (x : Val K) : Data K :=
  if c then dset d k x else d

@[simp] theorem dlookup_nil (key : String) : dlookup ([] : Data K) key = none := rfl

@[simp] theorem dlookup_dset_self (d : Data K) (k : String) (x : Val K) :
    dlookup (dset d k x) k = some x := by
  simp [dset, dlookup]

theorem dlookup_dset_ne (d : Data K) (k key : String) (x : Val K) (h : k ≠ key) :
    dlookup (dset d k x) key = dlookup d key := by
  simp [dset, dlookup, h]

@[simp] theorem dlookup_cons (p : String × Val K) (d : Data K) (key : String) :
    dlookup (p :: d) key = if p.1 = key then some p.2 else dlookup d key := by
  cases p; rfl

@[simp] theorem dlookup_dset (d : Data K) (k key : String) (x : Val K) :
    dlookup (dset d k x) key = if k = key then some x else dlookup d key := by
  simp [dset, dlookup]

@[simp] theorem dlookup_dsetIf (c : Bool) (d : Data K) (k key : String) (x : Val K) :
    dlookup (dsetIf c d k x) key =
      if k = key ∧ c then some x else dlookup d key := by
  cases c <;> simp [dsetIf]

@[simp] theorem dgetS_def (d : Data K) (k : String) :
    dgetS d k = match dlookup d k with | some (.s a) => a | _ => 0 := rfl

@[simp] theorem dgetV_def (d : Data K) (k : String) :
    dgetV d k = match dlookup d k with | some (.v a) => a | _ => (⟨0,0,0⟩ : V3 K) := rfl

/-!
## Compute pipeline stages (`desc/compute/compute_funs.py`)

Each `...Block` is the body of one `compute_*` function after its calls to
upstream stages; composed stages mirror the source call graph.  The
parameter `chk : String → Bool` is `key ↦ check_derivs(key, R_transform,
Z_transform, L_transform)` for the fixed Transforms of one pipeline
invocation (`check_derivs` itself is embedded and analysed separately
below).  `Rv, Zv, Lv : String → K` give the external Transform's value at
this node for the derivative registered for each key, and `iv : ℕ → K`
gives `iota.compute(i_l, dr)`.
-/

/-- Body of `compute_toroidal_flux` (lines 116-123): psi, psi_r, psi_rr. -/
def computeToroidalFluxBlock (Psi rho pi : K) (d : Data K) : Data K :=
  let d := dset d "psi" (.s (Psi * rho ^ 2 / (2 * pi)))
  let d := dset d "psi_r" (.s (2 * Psi * rho / (2 * pi)))
  dset d "psi_rr" (.s (2 * Psi / (2 * pi)))

/-- Body of `compute_pressure` (lines 147-148); `pv dr` is
`pressure.compute(p_l, dr)`. -/
def computePressureBlock (pv : ℕ → K) (d : Data K) : Data K :=
  let d := dset d "p" (.s (pv 0))
  dset d "p_r" (.s (pv 1))

/-- Body of `compute_rotational_transform` (lines 174-176). -/
def computeRotationalTransformBlock (iv : ℕ → K) (d : Data K) : Data K :=
  let d := dset d "iota" (.s (iv 0))
  let d := dset d "iota_r" (.s (iv 1))
  dset d "iota_rr" (.s (iv 2))

/-- The 20 output keys of `compute_R` (lines 202-223), in source order. -/
def rKeys : List String :=
  ["R", "R_r", "R_t", "R_z", "R_rr", "R_tt", "R_zz", "R_rt", "R_rz", "R_tz",
   "R_rrr", "R_ttt", "R_zzz", "R_rrt", "R_rtt", "R_rrz", "R_rzz", "R_ttz",
   "R_tzz", "R_rtz"]

/-- The 20 output keys of `compute_Z` (lines 253-274). -/
def zKeys : List String :=
  ["Z", "Z_r", "Z_t", "Z_z", "Z_rr", "Z_tt", "Z_zz", "Z_rt", "Z_rz", "Z_tz",
   "Z_rrr", "Z_ttt", "Z_zzz", "Z_rrt", "Z_rtt", "Z_rrz", "Z_rzz", "Z_ttz",
   "Z_tzz", "Z_rtz"]

/-- The 20 output keys of `compute_lambda` (lines 304-325). -/
def lKeys : List String :=
  ["lambda", "lambda_r", "lambda_t", "lambda_z", "lambda_rr", "lambda_tt",
   "lambda_zz", "lambda_rt", "lambda_rz", "lambda_tz", "lambda_rrr",
   "lambda_ttt", "lambda_zzz", "lambda_rrt", "lambda_rtt", "lambda_rrz",
   "lambda_rzz", "lambda_ttz", "lambda_tzz", "lambda_rtz"]

/-- Body of `compute_R` (lines 225-228): for each key, if `check_derivs`
passes, store the Transform's value for that key's registered derivative. -/
def computeRBlock (chk : String → Bool) (Rv : String → K) (d : Data K) : Data K :=
  rKeys.foldl (fun d k => dsetIf (chk k) d k (.s (Rv k))) d

/-- Body of `compute_Z` (lines 276-279). -/
def computeZBlock (chk : String → Bool) (Zv : String → K) (d : Data K) : Data K :=
  zKeys.foldl (fun d k => dsetIf (chk k) d k (.s (Zv k))) d

/-- Body of `compute_lambda` (lines 327-330). -/
def computeLambdaBlock (chk : String → Bool) (Lv : String → K) (d : Data K) : Data K :=
  lKeys.foldl (fun d k => dsetIf (chk k) d k (.s (Lv k))) d

/-- Body of `compute_covariant_basis` (lines 400-466) after its calls to
`compute_R` and `compute_Z`.  `data["0"]` (a zero array, line 400) is
written unconditionally; the `R_*`/`Z_*` entries are read once at entry
(they are never written inside this block). -/
def covariantBasisBlock (chk : String → Bool) (d : Data K) : Data K :=
  let d := dset d "0" (.s 0)
  let z0 : K := 0
  let R := dgetS d "R"; let R_r := dgetS d "R_r"; let R_t := dgetS d "R_t"
  let R_z := dgetS d "R_z"; let R_rr := dgetS d "R_rr"; let R_tt := dgetS d "R_tt"
  let R_zz := dgetS d "R_zz"; let R_rt := dgetS d "R_rt"; let R_rz := dgetS d "R_rz"
  let R_tz := dgetS d "R_tz"; let R_rrr := dgetS d "R_rrr"; let R_ttt := dgetS d "R_ttt"
  let R_zzz := dgetS d "R_zzz"; let R_rrt := dgetS d "R_rrt"; let R_rtt := dgetS d "R_rtt"
  let R_rrz := dgetS d "R_rrz"; let R_rzz := dgetS d "R_rzz"; let R_ttz := dgetS d "R_ttz"
  let R_tzz := dgetS d "R_tzz"; let R_rtz := dgetS d "R_rtz"
  let Z_r := dgetS d "Z_r"; let Z_t := dgetS d "Z_t"; let Z_z := dgetS d "Z_z"
  let Z_rr := dgetS d "Z_rr"; let Z_tt := dgetS d "Z_tt"; let Z_zz := dgetS d "Z_zz"
  let Z_rt := dgetS d "Z_rt"; let Z_rz := dgetS d "Z_rz"; let Z_tz := dgetS d "Z_tz"
  let Z_rrr := dgetS d "Z_rrr"; let Z_ttt := dgetS d "Z_ttt"; let Z_zzz := dgetS d "Z_zzz"
  let Z_rrt := dgetS d "Z_rrt"; let Z_rtt := dgetS d "Z_rtt"; let Z_rrz := dgetS d "Z_rrz"
  let Z_rzz := dgetS d "Z_rzz"; let Z_ttz := dgetS d "Z_ttz"; let Z_tzz := dgetS d "Z_tzz"
  let Z_rtz := dgetS d "Z_rtz"
  let d := dsetIf (chk "e_rho") d "e_rho" (.v ⟨R_r, z0, Z_r⟩)
  let d := dsetIf (chk "e_theta") d "e_theta" (.v ⟨R_t, z0, Z_t⟩)
  let d := dsetIf (chk "e_zeta") d "e_zeta" (.v ⟨R_z, R, Z_z⟩)
  let d := dsetIf (chk "e_rho_r") d "e_rho_r" (.v ⟨R_rr, z0, Z_rr⟩)
  let d := dsetIf (chk "e_rho_t") d "e_rho_t" (.v ⟨R_rt, z0, Z_rt⟩)
  let d := dsetIf (chk "e_rho_z") d "e_rho_z" (.v ⟨R_rz, z0, Z_rz⟩)
  let d := dsetIf (chk "e_theta_r") d "e_theta_r" (.v ⟨R_rt, z0, Z_rt⟩)
  let d := dsetIf (chk "e_theta_t") d "e_theta_t" (.v ⟨R_tt, z0, Z_tt⟩)
  let d := dsetIf (chk "e_theta_z") d "e_theta_z" (.v ⟨R_tz, z0, Z_tz⟩)
  let d := dsetIf (chk "e_zeta_r") d "e_zeta_r" (.v ⟨R_rz, R_r, Z_rz⟩)
  let d := dsetIf (chk "e_zeta_t") d "e_zeta_t" (.v ⟨R_tz, R_t, Z_tz⟩)
  let d := dsetIf (chk "e_zeta_z") d "e_zeta_z" (.v ⟨R_zz, R_z, Z_zz⟩)
  let d := dsetIf (chk "e_rho_rr") d "e_rho_rr" (.v ⟨R_rrr, z0, Z_rrr⟩)
  let d := dsetIf (chk "e_rho_tt") d "e_rho_tt" (.v ⟨R_rtt, z0, Z_rtt⟩)
  let d := dsetIf (chk "e_rho_zz") d "e_rho_zz" (.v ⟨R_rzz, z0, Z_rzz⟩)
  let d := dsetIf (chk "e_rho_rt") d "e_rho_rt" (.v ⟨R_rrt, z0, Z_rrt⟩)
  let d := dsetIf (chk "e_rho_rz") d "e_rho_rz" (.v ⟨R_rrz, z0, Z_rrz⟩)
  let d := dsetIf (chk "e_rho_tz") d "e_rho_tz" (.v ⟨R_rtz, z0, Z_rtz⟩)
  let d := dsetIf (chk "e_theta_rr") d "e_theta_rr" (.v ⟨R_rrt, z0, Z_rrt⟩)
  let d := dsetIf (chk "e_theta_tt") d "e_theta_tt" (.v ⟨R_ttt, z0, Z_ttt⟩)
  let d := dsetIf (chk "e_theta_zz") d "e_theta_zz" (.v ⟨R_tzz, z0, Z_tzz⟩)
  let d := dsetIf (chk "e_theta_rt") d "e_theta_rt" (.v ⟨R_rtt, z0, Z_rtt⟩)
  let d := dsetIf (chk "e_theta_rz") d "e_theta_rz" (.v ⟨R_rtz, z0, Z_rtz⟩)
  let d := dsetIf (chk "e_theta_tz") d "e_theta_tz" (.v ⟨R_ttz, z0, Z_ttz⟩)
  let d := dsetIf (chk "e_zeta_rr") d "e_zeta_rr" (.v ⟨R_rrz, R_rr, Z_rrz⟩)
  let d := dsetIf (chk "e_zeta_tt") d "e_zeta_tt" (.v ⟨R_ttz, R_tt, Z_ttz⟩)
  let d := dsetIf (chk "e_zeta_zz") d "e_zeta_zz" (.v ⟨R_zzz, R_zz, Z_zzz⟩)
  let d := dsetIf (chk "e_zeta_rt") d "e_zeta_rt" (.v ⟨R_rtz, R_rt, Z_rtz⟩)
  let d := dsetIf (chk "e_zeta_rz") d "e_zeta_rz" (.v ⟨R_rzz, R_rz, Z_rzz⟩)
  dsetIf (chk "e_zeta_tz") d "e_zeta_tz" (.v ⟨R_tzz, R_tz, Z_tzz⟩)

/-- `compute_covariant_basis` (lines 370-468): `compute_R`, `compute_Z`,
then the basis-vector block. -/
def covariantBasisStage (chk : String → Bool) (Rv Zv : String → K) (d : Data K) : Data K :=
  covariantBasisBlock chk (computeZBlock chk Zv (computeRBlock chk Rv d))

/-- Body of `compute_jacobian` (lines 554-616) after its call to
`compute_covariant_basis`: sqrt(g) and its first and second derivatives by
the generalized product rule.  The basis vectors are read once at entry
(this block writes only `sqrt(g)*` scalars). -/
def jacobianBlock (chk : String → Bool) (d : Data K) : Data K :=
  let e_rho := dgetV d "e_rho"; let e_theta := dgetV d "e_theta"
  let e_zeta := dgetV d "e_zeta"
  let e_rho_r := dgetV d "e_rho_r"; let e_rho_t := dgetV d "e_rho_t"
  let e_rho_z := dgetV d "e_rho_z"
  let e_theta_r := dgetV d "e_theta_r"; let e_theta_t := dgetV d "e_theta_t"
  let e_theta_z := dgetV d "e_theta_z"
  let e_zeta_r := dgetV d "e_zeta_r"; let e_zeta_t := dgetV d "e_zeta_t"
  let e_zeta_z := dgetV d "e_zeta_z"
  let e_rho_rr := dgetV d "e_rho_rr"; let e_rho_tt := dgetV d "e_rho_tt"
  let e_rho_zz := dgetV d "e_rho_zz"; let e_rho_tz := dgetV d "e_rho_tz"
  let e_theta_rr := dgetV d "e_theta_rr"; let e_theta_tt := dgetV d "e_theta_tt"
  let e_theta_zz := dgetV d "e_theta_zz"; let e_theta_tz := dgetV d "e_theta_tz"
  let e_zeta_rr := dgetV d "e_zeta_rr"; let e_zeta_tt := dgetV d "e_zeta_tt"
  let e_zeta_zz := dgetV d "e_zeta_zz"; let e_zeta_tz := dgetV d "e_zeta_tz"
  let d := dsetIf (chk "sqrt(g)") d "sqrt(g)"
    (.s (dot3 e_rho (cross3 e_theta e_zeta)))
  let d := dsetIf (chk "sqrt(g)_r") d "sqrt(g)_r"
    (.s (dot3 e_rho_r (cross3 e_theta e_zeta)
      + dot3 e_rho (cross3 e_theta_r e_zeta)
      + dot3 e_rho (cross3 e_theta e_zeta_r)))
  let d := dsetIf (chk "sqrt(g)_t") d "sqrt(g)_t"
    (.s (dot3 e_rho_t (cross3 e_theta e_zeta)
      + dot3 e_rho (cross3 e_theta_t e_zeta)
      + dot3 e_rho (cross3 e_theta e_zeta_t)))
  let d := dsetIf (chk "sqrt(g)_z") d "sqrt(g)_z"
    (.s (dot3 e_rho_z (cross3 e_theta e_zeta)
      + dot3 e_rho (cross3 e_theta_z e_zeta)
      + dot3 e_rho (cross3 e_theta e_zeta_z)))
  let d := dsetIf (chk "sqrt(g)_rr") d "sqrt(g)_rr"
    (.s (dot3 e_rho_rr (cross3 e_theta e_zeta)
      + dot3 e_rho (cross3 e_theta_rr e_zeta)
      + dot3 e_rho (cross3 e_theta e_zeta_rr)
      + 2 * dot3 e_rho_r (cross3 e_theta_r e_zeta)
      + 2 * dot3 e_rho_r (cross3 e_theta e_zeta_r)
      + 2 * dot3 e_rho (cross3 e_theta_r e_zeta_r)))
  let d := dsetIf (chk "sqrt(g)_tt") d "sqrt(g)_tt"
    (.s (dot3 e_rho_tt (cross3 e_theta e_zeta)
      + dot3 e_rho (cross3 e_theta_tt e_zeta)
      + dot3 e_rho (cross3 e_theta e_zeta_tt)
      + 2 * dot3 e_rho_t (cross3 e_theta_t e_zeta)
      + 2 * dot3 e_rho_t (cross3 e_theta e_zeta_t)
      + 2 * dot3 e_rho (cross3 e_theta_t e_zeta_t)))
  let d := dsetIf (chk "sqrt(g)_zz") d "sqrt(g)_zz"
    (.s (dot3 e_rho_zz (cross3 e_theta e_zeta)
      + dot3 e_rho (cross3 e_theta_zz e_zeta)
      + dot3 e_rho (cross3 e_theta e_zeta_zz)
      + 2 * dot3 e_rho_z (cross3 e_theta_z e_zeta)
      + 2 * dot3 e_rho_z (cross3 e_theta e_zeta_z)
      + 2 * dot3 e_rho (cross3 e_theta_z e_zeta_z)))
  dsetIf (chk "sqrt(g)_tz") d "sqrt(g)_tz"
    (.s (dot3 e_rho_tz (cross3 e_theta e_zeta)
      + dot3 e_rho_z (cross3 e_theta_t e_zeta)
      + dot3 e_rho_z (cross3 e_theta e_zeta_t)
      + dot3 e_rho_t (cross3 e_theta_z e_zeta)
      + dot3 e_rho (cross3 e_theta_tz e_zeta)
      + dot3 e_rho (cross3 e_theta_z e_zeta_t)
      + dot3 e_rho_t (cross3 e_theta e_zeta_z)
      + dot3 e_rho (cross3 e_theta_t e_zeta_z)
      + dot3 e_rho (cross3 e_theta e_zeta_tz)))

/-- `compute_jacobian` (lines 518-618): covariant basis then the Jacobian
block. -/
def jacobianStage (chk : String → Bool) (Rv Zv : String → K) (d : Data K) : Data K :=
  jacobianBlock chk (covariantBasisStage chk Rv Zv d)

/-- `compute_contravariant_basis` (lines 471-515): if `"sqrt(g)" not in
data` it first runs `compute_jacobian` (the pipeline's only
memoization-by-key-presence guard), then stores the reciprocal basis
vectors; no axis-node special case appears anywhere in this function. -/
def contravariantBasisStage (chk : String → Bool) (Rv Zv : String → K) (d : Data K) : Data K :=
  let d := if dmem d "sqrt(g)" then d else jacobianStage chk Rv Zv d
  let sg := dgetS d "sqrt(g)"
  let e_rho := dgetV d "e_rho"; let e_theta := dgetV d "e_theta"
  let e_zeta := dgetV d "e_zeta"
  let z0 := dgetS d "0"
  let R := dgetS d "R"
  let d := dsetIf (chk "e^rho") d "e^rho" (.v (vdiv3 (cross3 e_theta e_zeta) sg))
  let d := dsetIf (chk "e^theta") d "e^theta" (.v (vdiv3 (cross3 e_zeta e_rho) sg))
  dsetIf (chk "e^zeta") d "e^zeta" (.v ⟨z0, 1 / R, z0⟩)

/-- Body of `compute_contravariant_magnetic_field` (lines 786-907) after
its upstream stage calls.  Keys written earlier in this same block (`B0`,
`B^theta`, ... ) are read back through the running dictionary, exactly as
the source reads `data["B0"]` after assigning it; upstream keys are read
once at entry.

The six second-derivative assignments reproduce a defect of the source:
in lines 868-905 the continuation terms (e.g. `-2*data["B0_t"] *
data["lambda_tz"] - data["B0"]*data["lambda_ttz"]` under `B^theta_tt`)
stand on their own lines with balanced parentheses, so Python parses them
as separate expression statements with no effect; only the first factor is
actually assigned. -/
def fieldBlock (chk : String → Bool) (d : Data K) : Data K :=
  let psi_r := dgetS d "psi_r"; let psi_rr := dgetS d "psi_rr"
  let iota := dgetS d "iota"; let iota_r := dgetS d "iota_r"
  let lambda_t := dgetS d "lambda_t"; let lambda_z := dgetS d "lambda_z"
  let lambda_tt := dgetS d "lambda_tt"; let lambda_tz := dgetS d "lambda_tz"
  let lambda_zz := dgetS d "lambda_zz"
  let lambda_rt := dgetS d "lambda_rt"; let lambda_rz := dgetS d "lambda_rz"
  let sg := dgetS d "sqrt(g)"
  let sg_r := dgetS d "sqrt(g)_r"; let sg_t := dgetS d "sqrt(g)_t"
  let sg_z := dgetS d "sqrt(g)_z"
  let sg_tt := dgetS d "sqrt(g)_tt"; let sg_zz := dgetS d "sqrt(g)_zz"
  let sg_tz := dgetS d "sqrt(g)_tz"
  let e_theta := dgetV d "e_theta"; let e_zeta := dgetV d "e_zeta"
  let e_theta_r := dgetV d "e_theta_r"; let e_theta_t := dgetV d "e_theta_t"
  let e_theta_z := dgetV d "e_theta_z"
  let e_zeta_r := dgetV d "e_zeta_r"; let e_zeta_t := dgetV d "e_zeta_t"
  let e_zeta_z := dgetV d "e_zeta_z"
  let zeroK := dgetS d "0"
  let d := dsetIf (chk "B0") d "B0" (.s (psi_r / sg))
  let d := dsetIf (chk "B^rho") d "B^rho" (.s zeroK)
  let d := dsetIf (chk "B^theta") d "B^theta"
    (.s (dgetS d "B0" * (iota - lambda_z)))
  let d := dsetIf (chk "B^zeta") d "B^zeta"
    (.s (dgetS d "B0" * (1 + lambda_t)))
  let Bvec := vadd3 (smul3 (dgetS d "B^theta") e_theta)
    (smul3 (dgetS d "B^zeta") e_zeta)
  let d := dsetIf (chk "B") d "B" (.v Bvec)
  let d := dsetIf (chk "B") d "B_R" (.s Bvec.x)
  let d := dsetIf (chk "B") d "B_phi" (.s Bvec.y)
  let d := dsetIf (chk "B") d "B_Z" (.s Bvec.z)
  let d := dsetIf (chk "B0_r") d "B0_r"
    (.s (psi_rr / sg - psi_r * sg_r / sg ^ 2))
  let d := dsetIf (chk "B^theta_r") d "B^theta_r"
    (.s (dgetS d "B0_r" * (iota - lambda_z) + dgetS d "B0" * (iota_r - lambda_rz)))
  let d := dsetIf (chk "B^zeta_r") d "B^zeta_r"
    (.s (dgetS d "B0_r" * (1 + lambda_t) + dgetS d "B0" * lambda_rt))
  let d := dsetIf (chk "B_r") d "B_r"
    (.v (vadd3 (vadd3 (smul3 (dgetS d "B^theta_r") e_theta)
                      (smul3 (dgetS d "B^theta") e_theta_r))
               (vadd3 (smul3 (dgetS d "B^zeta_r") e_zeta)
                      (smul3 (dgetS d "B^zeta") e_zeta_r))))
  let d := dsetIf (chk "B0_t") d "B0_t" (.s (-psi_r * sg_t / sg ^ 2))
  let d := dsetIf (chk "B^theta_t") d "B^theta_t"
    (.s (dgetS d "B0_t" * (iota - lambda_z) - dgetS d "B0" * lambda_tz))
  let d := dsetIf (chk "B^zeta_t") d "B^zeta_t"
    (.s (dgetS d "B0_t" * (1 + lambda_t) + dgetS d "B0" * lambda_tt))
  let d := dsetIf (chk "B_t") d "B_t"
    (.v (vadd3 (vadd3 (smul3 (dgetS d "B^theta_t") e_theta)
                      (smul3 (dgetS d "B^theta") e_theta_t))
               (vadd3 (smul3 (dgetS d "B^zeta_t") e_zeta)
                      (smul3 (dgetS d "B^zeta") e_zeta_t))))
  let d := dsetIf (chk "B0_z") d "B0_z" (.s (-psi_r * sg_z / sg ^ 2))
  let d := dsetIf (chk "B^theta_z") d "B^theta_z"
    (.s (dgetS d "B0_z" * (iota - lambda_z) - dgetS d "B0" * lambda_zz))
  let d := dsetIf (chk "B^zeta_z") d "B^zeta_z"
    (.s (dgetS d "B0_z" * (1 + lambda_t) + dgetS d "B0" * lambda_tz))
  let d := dsetIf (chk "B_z") d "B_z"
    (.v (vadd3 (vadd3 (smul3 (dgetS d "B^theta_z") e_theta)
                      (smul3 (dgetS d "B^theta") e_theta_z))
               (vadd3 (smul3 (dgetS d "B^zeta_z") e_zeta)
                      (smul3 (dgetS d "B^zeta") e_zeta_z))))
  let d := dsetIf (chk "B0_tt") d "B0_tt"
    (.s (-(psi_r / sg ^ 2 * (sg_tt - 2 * sg_t ^ 2 / sg))))
  let d := dsetIf (chk "B^theta_tt") d "B^theta_tt"
    (.s (dgetS d "B0_tt" * (iota - lambda_z)))
  let d := dsetIf (chk "B^zeta_tt") d "B^zeta_tt"
    (.s (dgetS d "B0_tt" * (1 + lambda_t)))
  let d := dsetIf (chk "B0_zz") d "B0_zz"
    (.s (-(psi_r / sg ^ 2 * (sg_zz - 2 * sg_z ^ 2 / sg))))
  let d := dsetIf (chk "B^theta_zz") d "B^theta_zz"
    (.s (dgetS d "B0_zz" * (iota - lambda_z)))
  let d := dsetIf (chk "B^zeta_zz") d "B^zeta_zz"
    (.s (dgetS d "B0_zz" * (1 + lambda_t)))
  let d := dsetIf (chk "B0_tz") d "B0_tz"
    (.s (-(psi_r / sg ^ 2 * (sg_tz - 2 * sg_t * sg_z / sg))))
  let d := dsetIf (chk "B^theta_tz") d "B^theta_tz"
    (.s (dgetS d "B0_tz" * (iota - lambda_z)))
  dsetIf (chk "B^zeta_tz") d "B^zeta_tz"
    (.s (dgetS d "B0_tz" * (1 + lambda_t)))

/-- `compute_contravariant_magnetic_field` (lines 732-907): toroidal flux,
rotational transform, lambda, Jacobian, then the field block, in source
order. -/
def contravariantFieldStage (chk : String → Bool) (Psi rho pi : K)
    (iv : ℕ → K) (Lv Rv Zv : String → K) (d : Data K) : Data K :=
  fieldBlock chk
    (jacobianStage chk Rv Zv
      (computeLambdaBlock chk Lv
        (computeRotationalTransformBlock iv
          (computeToroidalFluxBlock Psi rho pi d))))

/-- Body of `compute_force_error` (lines 1783-1816) after its upstream
stage calls.  `sqrtf` is the external `jnp.sqrt`.  The `F` vector and
`|F|` read the freshly written `F_rho`, `F_theta`, `F_zeta` back from the
running dictionary, as the source does. -/
def forceErrorBlock (chk : String → Bool) (sqrtf : K → K) (d : Data K) : Data K :=
  let p_r := dgetS d "p_r"
  let sg := dgetS d "sqrt(g)"
  let Bt := dgetS d "B^theta"; let Bz := dgetS d "B^zeta"
  let Jr := dgetS d "J^rho"; let Jt := dgetS d "J^theta"; let Jz := dgetS d "J^zeta"
  let grr := dgetS d "g^rr"; let gtt := dgetS d "g^tt"; let gzz := dgetS d "g^zz"
  let grt := dgetS d "g^rt"; let grz := dgetS d "g^rz"; let gtz := dgetS d "g^tz"
  let erho := dgetV d "e^rho"; let etheta := dgetV d "e^theta"
  let ezeta := dgetV d "e^zeta"
  let gradRho := dgetS d "|grad(rho)|"
  let d := dsetIf (chk "F_rho") d "F_rho" (.s (-p_r + sg * (Bz * Jt - Bt * Jz)))
  let d := dsetIf (chk "F_theta") d "F_theta" (.s (-sg * Bz * Jr))
  let d := dsetIf (chk "F_zeta") d "F_zeta" (.s (sg * Bt * Jr))
  let d := dsetIf (chk "F_beta") d "F_beta" (.s (sg * Jr))
  let d := dsetIf (chk "F") d "F"
    (.v (vadd3 (vadd3 (smul3 (dgetS d "F_rho") erho)
                      (smul3 (dgetS d "F_theta") etheta))
               (smul3 (dgetS d "F_zeta") ezeta)))
  let d := dsetIf (chk "|F|") d "|F|"
    (.s (sqrtf (dgetS d "F_rho" ^ 2 * grr
      + dgetS d "F_theta" ^ 2 * gtt
      + dgetS d "F_zeta" ^ 2 * gzz
      + 2 * dgetS d "F_rho" * dgetS d "F_theta" * grt
      + 2 * dgetS d "F_rho" * dgetS d "F_zeta" * grz
      + 2 * dgetS d "F_theta" * dgetS d "F_zeta" * gtz)))
  let d := dsetIf (chk "|grad(p)|") d "|grad(p)|" (.s (sqrtf (p_r ^ 2) * gradRho))
  dsetIf (chk "|beta|") d "|beta|"
    (.s (sqrtf (Bz ^ 2 * gtt + Bt ^ 2 * gzz - 2 * Bt * Bz * gtz)))

/-!
## The derivative-requirement checker and its callers

`check_derivs` (compute_funs.py lines 9-50) consults the static
`data_index` registry.  The registry lives in a module of this repository
that is not present under `src/` (only `from desc.compute import
data_index` is), so its rows are universally quantified parameters here:
a row records, per spectral family, which derivative-order triples a key
needs, or `none` when the family is not consulted for that key.
-/

/-- A derivative order triple `(d_rho, d_theta, d_zeta)`. -/
structure Deriv where
  dr : ℕ
  dt : ℕ
  dz : ℕ
deriving DecidableEq, Repr

/-- One `data_index` row: the derivative orders of R, Z and lambda a key
requires (`none` = the corresponding `"X_derivs"` field is absent). -/
structure Entry where
  Rderivs : Option (List Deriv)
  Zderivs : Option (List Deriv)
  Lderivs : Option (List Deriv)

/-- An external Transform as `check_derivs` and `compute_R` see it: its
fixed set of available derivative orders, and its evaluation (the value of
`transform(coeffs, dr, dt, dz)` at the node under study). -/
structure Transform (K : Type) where
  derivs : List Deriv
  eval : Deriv → K

/-- One family's flag inside `check_derivs`: if the registry requires
derivatives of this family, every required order must be among the
Transform's available derivatives.  A `none` transform models an omitted
argument; dereferencing `None.derivatives` in Python raises
(AttributeError), modelled by `Except.error`. -/
def familyFlag (req : Option (List Deriv)) (tr : Option (Transform K)) :
    Except Unit Bool :=
  match req with
  | none => .ok true
  | some ds =>
    match tr with
    | none => .error ()
    | some t => .ok (ds.all (fun x => t.derivs.contains x))

/-- `check_derivs(key, R_transform, Z_transform, L_transform)`
(lines 9-50): conjunction of the three family flags, evaluated in source
order. -/
def checkDerivs (reg : String → Entry) (key : String)
    (Rt Zt Lt : Option (Transform K)) : Except Unit Bool := do
  let rf ← familyFlag (reg key).Rderivs Rt
  let zf ← familyFlag (reg key).Zderivs Zt
  let lf ← familyFlag (reg key).Lderivs Lt
  return rf && zf && lf

/-- `compute_R` (lines 181-229) against the registry: for each key, if
`check_derivs(key, R_transform=R_transform)` passes the Transform is
evaluated at the first registered derivative
(`data_index[key]["R_derivs"][0]`); a passing check with a missing or
empty `R_derivs` registration would be a KeyError/IndexError, modelled as
an error. -/
def computeRRegStep (reg : String → Entry) (Rt : Transform K) (d : Data K)
    (k : String) : Except Unit (Data K) := do
  let flag ← checkDerivs reg k (some Rt) none none
  if flag then
    match (reg k).Rderivs with
    | some (d0 :: _) => pure (dset d k (.s (Rt.eval d0)))
    | _ => .error ()
  else
    pure d

/-- The whole of `compute_R` against the registry: the guarded write for
each of the twenty keys in source order. -/
def computeRReg (reg : String → Entry) (Rt : Transform K) (d : Data K) :
    Except Unit (Data K) :=
  rKeys.foldlM (computeRRegStep reg Rt) d

/-- The spec's requirement relation for one family: every derivative
order the registry requires is among the supplied Transform's available
derivatives. -/
def familySat (req : Option (List Deriv)) (tr : Option (Transform K)) : Prop :=
  ∀ ds, req = some ds → ∀ x ∈ ds, ∃ t, tr = some t ∧ x ∈ t.derivs

/-!
## Python default-argument semantics of the compute functions

Every `compute_*` function is declared with `data={}`.  Python evaluates a
`def`'s default argument once, at definition time, so each function owns
one persistent dictionary; a call that omits `data` mutates that
function's own default in place and returns the very same object.  Calls
that pass `data` (as every internal stage-to-stage call does, always as
`data=data`) leave the defaults untouched.  The module state below holds
one default dictionary per embedded function.
-/

/-- The mutable default dictionaries of `compute_toroidal_flux` (line 98)
and `compute_R` (line 184).  These are distinct objects: each `def`
evaluates its own `data={}`. -/
structure ModuleState (K : Type) where
  tfDefault : Data K
  rDefault : Data K

/-- Fresh module state (both defaults empty, as right after import). -/
def initState : ModuleState K := ⟨[], []⟩

/-- A call to `compute_toroidal_flux`: with an explicit `data` argument
the caller's dictionary is updated and the defaults are untouched; with
the argument omitted, the function's own default is mutated in place and
returned (the result IS the stored default object). -/
def callToroidalFlux (Psi rho pi : K) (arg : Option (Data K))
    (s : ModuleState K) : Data K × ModuleState K :=
  match arg with
  | some d => (computeToroidalFluxBlock Psi rho pi d, s)
  | none =>
    let r := computeToroidalFluxBlock Psi rho pi s.tfDefault
    (r, { s with tfDefault := r })

/-- A call to `compute_R`, with the same default-argument semantics. -/
def callComputeR (chk : String → Bool) (Rv : String → K)
    (arg : Option (Data K)) (s : ModuleState K) : Data K × ModuleState K :=
  match arg with
  | some d => (computeRBlock chk Rv d, s)
  | none =>
    let r := computeRBlock chk Rv s.rDefault
    (r, { s with rDefault := r })

/-!
## Grid subsystem (`desc/grid.py`)

A grid is a list of rows, one per node, each carrying the node
coordinates `(rho, theta, zeta)` and the spacing `(drho, dtheta, dzeta)`.
The constant `np.pi` is the parameter `pi`; `x ** (1/3)` is the parameter
`cbrt` (the real cube root), characterised where needed by
`cbrt a ^ 3 = a`.
-/

/-- One grid row: node coordinates and spacing. -/
abbrev GridRow (K : Type) : Type := (K × K × K) × (K × K × K)

/-- The rho coordinate of a row. -/
def nodeRho (p : GridRow K) : K := p.1.1

/-- The theta coordinate of a row. -/
def nodeTheta (p : GridRow K) : K := p.1.2.1

/-- The zeta coordinate of a row. -/
def nodeZeta (p : GridRow K) : K := p.1.2.2

/-- The dtheta spacing of a row. -/
def spaceTheta (p : GridRow K) : K := p.2.2.1

/-- numpy `%` for a positive modulus: `x - m * floor (x / m)`. -/
def fmod [FloorRing K] (x m : K) : K := x - m * ⌊x / m⌋

/-- Insert a value into a strictly increasing list, dropping duplicates
(helper for the embedding of `np.unique`). -/
def insertUnique (x : K) : List K → List K
  | [] => [x]
  | y :: ys =>
    if x < y then x :: y :: ys
    else if x = y then y :: ys
    else y :: insertUnique x ys

/-- `np.unique` on a 1-D array: the sorted list of its distinct values. -/
def uniqueSorted (l : List K) : List K := l.foldr insertUnique []

/-- The rho coordinates of all nodes of a grid, one per node. -/
def gridRhos (g : List (GridRow K)) : List K := g.map nodeRho

/-- The rho values of the nodes `_enforce_symmetry` deletes (those with
`theta > pi`), one per deleted node. -/
def gridDelRhos (pi : K) (g : List (GridRow K)) : List K :=
  (g.filter (fun p => decide (pi < nodeTheta p))).map nodeRho

/-- `Grid._enforce_symmetry` (grid.py lines 58-89).  When `sym` is set:
nodes with `theta > pi` are marked for deletion; the per-rho-surface
deletion counts (`np.unique(..., return_counts=True)` over the deleted
nodes' rho values, with a single `0` prepended when some surface has no
deletions, lines 76-78) are divided into the per-surface node counts to
form the theta-spacing scale factors, the spacing of every node is
rescaled, and the marked nodes are deleted.  The numpy division
broadcasts: a count vector of length 1 applies to every surface, a vector
of matching length applies surface-by-surface (in sorted rho order), and
any other length raises a ValueError, modelled by `none`.  When the set of
surfaces with deletions is neither all surfaces nor all-but-the-smallest,
the prepended zero misaligns the counts, which this embedding reproduces
faithfully. -/
def enforceSymmetry (pi : K) (sym : Bool) (g : List (GridRow K)) :
    Option (List (GridRow K)) :=
  if sym then
    let rhos := gridRhos g
    let delRhos := gridDelRhos pi g
    let uniq := uniqueSorted rhos
    let duniq := uniqueSorted delRhos
    let counts : List K := duniq.map (fun r => ((delRhos.count r : ℕ) : K))
    let v := if duniq.length < uniq.length then (0 : K) :: counts else counts
    if v.length = uniq.length ∨ v.length = 1 then
      let vAt : K → K := fun r =>
        if v.length = 1 then v.headD 0 else v.getD (uniq.indexOf r) 0
      let scaled := g.map (fun p =>
        let kcnt : K := ((rhos.count (nodeRho p) : ℕ) : K)
        ((nodeRho p, nodeTheta p, nodeZeta p),
         (p.2.1, p.2.2.1 * (kcnt / (kcnt - vAt (nodeRho p))), p.2.2.2)))
      some (scaled.filter (fun p => !decide (pi < nodeTheta p)))
    else none
  else some g

/-- The duplicate-count vector of `Grid._scale_weights` (lines 112-118):
nodes are canonicalised modulo the angular periods
(`nodes[:, 1] %= 2 pi`, `nodes[:, 2] %= 2 pi / NFP`) and each node is
assigned the number of rows equal to its canonical form
(`counts[inverse]` of `np.unique`). -/
def swCounts [FloorRing K] (pi : K) (NFP : ℕ) (g : List (GridRow K)) : List K :=
  let nm := g.map (fun p =>
    (nodeRho p, fmod (nodeTheta p) (2 * pi), fmod (nodeZeta p) (2 * pi / (NFP : K))))
  nm.map (fun q => ((nm.count q : ℕ) : K))

/-- `Grid._scale_weights` (grid.py lines 110-121): the spacing of each of
the `c` copies of a duplicated node is divided by `c ** (1/3)`
componentwise, all spacing is then rescaled by `(4 pi^2 / S) ** (1/3)`
componentwise where `S` is the current sum of spacing products, and the
weights are the row products of the resulting spacing.  Returns the
rescaled rows and the weights. -/
def scaleWeights [FloorRing K] (pi : K) (NFP : ℕ) (cbrt : K → K)
    (g : List (GridRow K)) : List (GridRow K) × List K :=
  let sp1 := (g.zip (swCounts pi NFP g)).map (fun pc =>
    (pc.1.1, (pc.1.2.1 / cbrt pc.2, pc.1.2.2.1 / cbrt pc.2, pc.1.2.2.2 / cbrt pc.2)))
  let S := (sp1.map (fun p => p.2.1 * p.2.2.1 * p.2.2.2)).sum
  let scl := cbrt (4 * pi ^ 2 / S)
  let sp2 := sp1.map (fun p => (p.1, (p.2.1 * scl, p.2.2.1 * scl, p.2.2.2 * scl)))
  (sp2, sp2.map (fun p => p.2.1 * p.2.2.1 * p.2.2.2))

/-- The pre-rescale sum of spacing products inside `scaleWeights`. -/
def swS [FloorRing K] (pi : K) (NFP : ℕ) (cbrt : K → K) (g : List (GridRow K)) : K :=
  (((g.zip (swCounts pi NFP g)).map (fun pc =>
    (pc.1.2.1 / cbrt pc.2) * (pc.1.2.2.1 / cbrt pc.2) * (pc.1.2.2.2 / cbrt pc.2)))).sum

/-- The maximum of a list (numpy `.max()`; 0 for an empty array, which the
source never hits). -/
def listMax : List K → K
  | [] => 0
  | [x] => x
  | x :: xs => max x (listMax xs)

/-- The minimum of a list (numpy `.min()`). -/
def listMin : List K → K
  | [] => 0
  | [x] => x
  | x :: xs => min x (listMin xs)

/-- `LinearGrid._create_nodes` (grid.py lines 332-448) on the path where
`L`, `M`, `N` are integers (as in `change_resolution`, which always passes
integers): rho is `flipud(linspace(1, 0, L+1, endpoint=axis))`, theta is
`2(M+1)` (symmetric) or `2M+1` points over `[0, 2 pi)` with a half-step
offset under symmetry, zeta is `2N+1` points over `[0, 2 pi / NFP)`, and
the spacing entries are the constants `dr`, `dt = 2 pi / tcnt`,
`dz = 2 pi / zcnt` with the source's degenerate-value fallbacks.  The
meshgrid is flattened in `ij` order: rho outermost, zeta innermost. -/
def linearCreateNodes (pi : K) (L M N NFP : ℕ) (axisFlag endpoint sym : Bool) :
    List (GridRow K) :=
  let n := L + 1
  let rs : List K :=
    if axisFlag then
      (List.range n).map (fun i => if n = 1 then 1 else (i : K) / ((n : K) - 1))
    else
      (List.range n).map (fun i => ((i : K) + 1) / (n : K))
  let dr1 : K := if 1 < rs.length then (listMax rs - listMin rs) / (rs.length : K) else 1
  let dr : K := if dr1 = 0 then 1 else dr1
  let tcnt := if sym then 2 * (M + 1) else 2 * M + 1
  let ts0 : List K := (List.range tcnt).map (fun j =>
    if endpoint then (if tcnt = 1 then 0 else 2 * pi * (j : K) / ((tcnt : K) - 1))
    else 2 * pi * (j : K) / (tcnt : K))
  let ts := if sym then ts0.map (fun t => t + ts0.getD 1 0 / 2) else ts0
  let dt1 : K := 2 * pi / (tcnt : K)
  let dt : K := if dt1 = 0 then 2 * pi else dt1
  let zcnt := 2 * N + 1
  let zs : List K := (List.range zcnt).map (fun j =>
    if endpoint then
      (if zcnt = 1 then 0 else 2 * pi / (NFP : K) * (j : K) / ((zcnt : K) - 1))
    else 2 * pi / (NFP : K) * (j : K) / (zcnt : K))
  let dz1 : K := 2 * pi / (zcnt : K)
  let dz : K := if dz1 = 0 then 2 * pi else dz1
  rs.flatMap (fun r => ts.flatMap (fun t => zs.map (fun z =>
    (((r, t, z), (dr, dt, dz)) : GridRow K))))

/-- Stable insertion of a row into a list sorted by the `np.lexsort` key
of `Grid._sort_nodes` (line 93): zeta primary, then rho, then theta. -/
def rowLe (p q : GridRow K) : Bool :=
  decide (nodeZeta p < nodeZeta q) ||
    (decide (nodeZeta p = nodeZeta q) &&
      (decide (nodeRho p < nodeRho q) ||
        (decide (nodeRho p = nodeRho q) && decide (nodeTheta p ≤ nodeTheta q))))

/-- Insert keeping stability: the new row goes after existing rows that
compare less-or-equal. -/
def insertRow (x : GridRow K) : List (GridRow K) → List (GridRow K)
  | [] => [x]
  | y :: ys => if rowLe y x then y :: insertRow x ys else x :: y :: ys

/-- `Grid._sort_nodes` (lines 91-95): stable lexicographic sort. -/
def sortRows (g : List (GridRow K)) : List (GridRow K) :=
  g.foldl (fun acc x => insertRow x acc) []

/-- Helper for `_find_axis`: indices (counting from `i`) of rows with
`rho == 0`. -/
def findAxisAux (i : ℕ) : List (GridRow K) → List ℕ
  | [] => []
  | p :: ps =>
    if nodeRho p = 0 then i :: findAxisAux (i + 1) ps else findAxisAux (i + 1) ps

/-- `Grid._find_axis` (lines 97-99): indices of rows with `rho == 0`. -/
def findAxis (g : List (GridRow K)) : List ℕ := findAxisAux 0 g

/-- Number of distinct values of a coordinate (`Grid._count_nodes`,
lines 101-108). -/
def countUnique (l : List K) : ℕ := (uniqueSorted l).length

/-- The mutable state of a `LinearGrid` object: resolution parameters and
the cached nodes/spacing, weights, axis indices and unique-value counts. -/
structure LinearGridState (K : Type) where
  L : ℕ
  M : ℕ
  N : ℕ
  NFP : ℕ
  sym : Bool
  endpoint : Bool
  rows : List (GridRow K)
  weights : List K
  axis : List ℕ
  numRho : ℕ
  numTheta : ℕ
  numZeta : ℕ

/-- `LinearGrid.__init__` (lines 291-330) on the integer path: create
nodes, enforce symmetry, sort, find axis, count unique values, scale
weights.  `none` when `_enforce_symmetry` raises. -/
def linearGridInit [FloorRing K] (pi : K) (cbrt : K → K) (L M N NFP : ℕ)
    (sym axisFlag endpoint : Bool) : Option (LinearGridState K) :=
  let rows := linearCreateNodes pi L M N NFP axisFlag endpoint sym
  match enforceSymmetry pi sym rows with
  | none => none
  | some rows1 =>
    let rows2 := sortRows rows1
    let ax := findAxis rows2
    let nR := countUnique (rows2.map nodeRho)
    let nT := countUnique (rows2.map nodeTheta)
    let nZ := countUnique (rows2.map nodeZeta)
    let rw := scaleWeights pi NFP cbrt rows2
    some { L := L, M := M, N := N, NFP := NFP, sym := sym, endpoint := endpoint,
           rows := rw.1, weights := rw.2, axis := ax,
           numRho := nR, numTheta := nT, numZeta := nZ }

/-- `LinearGrid.change_resolution` (grid.py lines 450-481): store the new
NFP; if `L`, `M` or `N` differs, regenerate the nodes (passing
`axis=len(self.axis) > 0`), re-run enforce-symmetry, sort, find-axis and
weight-scaling.  `_count_nodes` is NOT re-run, so `numRho`, `numTheta`,
`numZeta` keep their previous values; when `L`, `M` and `N` are all
unchanged nothing but NFP is touched. -/
def linearChangeResolution [FloorRing K] (pi : K) (cbrt : K → K)
    (L M N : ℕ) (NFPopt : Option ℕ) (s : LinearGridState K) :
    Option (LinearGridState K) :=
  let s := { s with NFP := NFPopt.getD s.NFP }
  if L ≠ s.L ∨ M ≠ s.M ∨ N ≠ s.N then
    let rows := linearCreateNodes pi L M N s.NFP (decide (0 < s.axis.length))
      s.endpoint s.sym
    match enforceSymmetry pi s.sym rows with
    | none => none
    | some rows1 =>
      let rows2 := sortRows rows1
      let ax := findAxis rows2
      let rw := scaleWeights pi s.NFP cbrt rows2
      some { s with L := L, M := M, N := N,
                    rows := rw.1, weights := rw.2, axis := ax }
  else some s

/-- `QuadratureGrid._create_nodes` (grid.py lines 526-582) restricted to
what the weights depend on, combined with line 524: the weights are the
plain spacing products, never rescaled ("Quad weights don't need
scaling").  `rdr` is the output of `scipy.special.js_roots(L+1, 2, 2)`,
the Gauss-Jacobi nodes and weights for the weight function `x` on
`[0, 1]`; the radial spacing is the Jacobi weight divided by the node
(line 577), the angular spacings are `2 pi / (2M+1)` and `2 pi / (2N+1)`
tiled over the meshgrid. -/
def quadratureWeights (pi : K) (rdr : List (K × K)) (M N : ℕ) : List K :=
  let Mc := 2 * M + 1
  let Nc := 2 * N + 1
  rdr.flatMap (fun rd =>
    (List.range Mc).flatMap (fun _ =>
      (List.range Nc).map (fun _ =>
        (rd.2 / rd.1) * (2 * pi / (Mc : K)) * (2 * pi / (Nc : K)))))

/-!
## Specification-side definitions and concrete instances
-/

/-- Modelled from the spec: the L'Hopital limiting expression the
specification prescribes for `e^rho` at axis nodes ("e^ρ by a limit
computed from e_θ,ρ rather than e_θ", with `sqrt(g)` replaced by its
rho-derivative).  Compared below against what the source actually
computes. -/
def eRhoAxisLimit (d : Data K) : V3 K :=
  vdiv3 (cross3 (dgetV d "e_theta_r") (dgetV d "e_zeta")) (dgetS d "sqrt(g)_r")

/-- The per-row rescaling `_enforce_symmetry` performs when the deletion
counts are correctly aligned: dtheta is multiplied by `k / (k - d)` where
`k` counts the nodes on the row's rho surface and `d` the deleted nodes
there (so `k - d` is the number of survivors). -/
def rescaleRow (pi : K) (g : List (GridRow K)) (p : GridRow K) : GridRow K :=
  let kcnt : K := ((gridRhos g).count (nodeRho p) : K)
  let dcnt : K := ((gridDelRhos pi g).count (nodeRho p) : K)
  ((nodeRho p, nodeTheta p, nodeZeta p),
   (p.2.1, p.2.2.1 * (kcnt / (kcnt - dcnt)), p.2.2.2))

/-- Data at a magnetic-axis node: `e_theta` vanishes and with it
`sqrt(g)`, while the limit quantities `e_theta_r` and `sqrt(g)_r` are
regular. -/
def c1data : Data ℚ :=
  [("sqrt(g)", .s 0), ("e_theta", .v ⟨0, 0, 0⟩), ("e_zeta", .v ⟨1, 2, 3⟩),
   ("e_rho", .v ⟨0, 0, 1⟩), ("e_theta_r", .v ⟨1, 0, 0⟩), ("sqrt(g)_r", .s 1),
   ("R", .s 2), ("0", .s 0)]

/-- Generic concrete upstream data for the force-error block. -/
def c2data : Data ℚ :=
  [("p_r", .s 1), ("sqrt(g)", .s 2), ("B^theta", .s 3), ("B^zeta", .s 5),
   ("J^rho", .s 7), ("J^theta", .s 11), ("J^zeta", .s 13),
   ("g^rr", .s 1), ("g^tt", .s 1), ("g^zz", .s 1), ("g^rt", .s 0),
   ("g^rz", .s 0), ("g^tz", .s 0),
   ("e^rho", .v ⟨1, 0, 0⟩), ("e^theta", .v ⟨0, 1, 0⟩), ("e^zeta", .v ⟨0, 0, 1⟩),
   ("|grad(rho)|", .s 1)]

/-- Concrete upstream data on which the dropped product-rule terms of the
second-order field derivatives are visible (`B0_t` and `lambda_tz`
nonzero). -/
def c4data : Data ℚ :=
  [("psi_r", .s 1), ("sqrt(g)", .s 1), ("sqrt(g)_t", .s 1), ("sqrt(g)_tt", .s 0),
   ("iota", .s 1), ("lambda_z", .s 0), ("lambda_tz", .s 1), ("lambda_ttz", .s 0)]

/-- A symmetric grid with three rho surfaces of which only the outermost
has a node with `theta > pi` (realised e.g. by
`ConcentricGrid(L=10, M=1, N=0, sym=True)`, whose three innermost rings
carry a single node at `theta = 2 pi / 3`). -/
def c7badGrid : List (GridRow ℚ) :=
  [((1/4, 1/2, 0), (1, 1, 1)), ((1/2, 1/2, 0), (1, 1, 1)),
   ((3/4, 4, 0), (1, 1, 1))]

/-- A symmetric grid whose every rho surface has a `theta > pi` node
(`pi` is instantiated as `3` in the concrete statements). -/
def c7goodGrid : List (GridRow ℚ) :=
  [((0, 1, 0), (1, 1, 1)), ((0, 4, 0), (1, 1, 1)),
   ((1, 1, 0), (1, 1, 1)), ((1, 4, 0), (1, 1, 1))]

/-- Rational stand-in for `np.pi` in the concrete grid computations (the
branching of `change_resolution` is independent of the value of pi; any
nonzero value exhibits the behaviour). -/
def c8pi : ℚ := 1

/-- Cube-root stand-in for the concrete grid computations; every value it
is applied to in them is 1, where the identity is the cube root. -/
def c8cbrt : ℚ → ℚ := fun x => x

/-- `LinearGrid(L=0, M=0, N=1, NFP=1)` (integer path, no symmetry). -/
def c8s0 : Option (LinearGridState ℚ) :=
  linearGridInit c8pi c8cbrt 0 0 1 1 false true false

/-- `change_resolution(0, 0, 1, NFP=2)` on that grid: only NFP differs. -/
def c8s1 : Option (LinearGridState ℚ) :=
  c8s0.bind (linearChangeResolution c8pi c8cbrt 0 0 1 (some 2))

/-- `change_resolution(1, 0, 1)` on that grid: L differs, so the nodes
are regenerated (to two radial surfaces). -/
def c8s2 : Option (LinearGridState ℚ) :=
  c8s0.bind (linearChangeResolution c8pi c8cbrt 1 0 1 none)

/-- The state `c8s0` evaluates to: one radial surface at rho = 1, one
theta, three zeta nodes, weight sum 4 pi^2 (= 4 at the embedded pi = 1). -/
def c8s0Lit : LinearGridState ℚ where
  L := 0
  M := 0
  N := 1
  NFP := 1
  sym := false
  endpoint := false
  rows := [((1, 0, 0), (1, 2, 2/3)), ((1, 0, 2/3), (1, 2, 2/3)),
           ((1, 0, 4/3), (1, 2, 2/3))]
  weights := [4/3, 4/3, 4/3]
  axis := []
  numRho := 1
  numTheta := 1
  numZeta := 3

/-- The state `c8s2` evaluates to: two radial surfaces, but the cached
unique-value counts still those of `c8s0Lit`. -/
def c8s2Lit : LinearGridState ℚ where
  L := 1
  M := 0
  N := 1
  NFP := 1
  sym := false
  endpoint := false
  rows := [((1/2, 0, 0), (1/2, 4, 4/3)), ((1, 0, 0), (1/2, 4, 4/3)),
           ((1/2, 0, 2/3), (1/2, 4, 4/3)), ((1, 0, 2/3), (1/2, 4, 4/3)),
           ((1/2, 0, 4/3), (1/2, 4, 4/3)), ((1, 0, 4/3), (1/2, 4, 4/3))]
  weights := [8/3, 8/3, 8/3, 8/3, 8/3, 8/3]
  axis := []
  numRho := 1
  numTheta := 1
  numZeta := 3

/-- First no-`data` call of the session: `compute_toroidal_flux(1, iota)`
at a node with `rho = 1`, with `pi` embedded as `3`. -/
def c10first : Data ℚ × ModuleState ℚ := callToroidalFlux 1 1 3 none initState

/-- Second no-`data` call, to the unrelated function `compute_R`. -/
def c10second : Data ℚ × ModuleState ℚ :=
  callComputeR (fun _ => true) (fun _ => 7) none c10first.2

/-- A one-row registry: every key requires the value itself of R. -/
def reg0 : String → Entry := fun _ => ⟨some [⟨0, 0, 0⟩], none, none⟩

/-- A Transform able to supply exactly that derivative. -/
def t0 : Transform ℚ := ⟨[⟨0, 0, 0⟩], fun _ => 5⟩

/-!
## Theorems
-/

/-- Claim C2: whenever the required derivative keys are available (the
`check_derivs` flags of the force keys are true), `compute_force_error`
stores `F_rho = -p_r + sqrt(g) (B^zeta J^theta - B^theta J^zeta)`,
`F_theta = -sqrt(g) B^zeta J^rho`, `F_zeta = sqrt(g) B^theta J^rho`, and
`|F|` as the square root of the six-term contravariant-metric sum with
each off-diagonal term counted twice. -/
theorem C2_force_error (chk : String → Bool) (sqrtf : K → K) (d : Data K)
    (h1 : chk "F_rho" = true) (h2 : chk "F_theta" = true)
    (h3 : chk "F_zeta" = true) (h4 : chk "|F|" = true) :
    dgetS (forceErrorBlock chk sqrtf d) "F_rho"
      = -(dgetS d "p_r") + dgetS d "sqrt(g)"
        * (dgetS d "B^zeta" * dgetS d "J^theta"
           - dgetS d "B^theta" * dgetS d "J^zeta")
    ∧ dgetS (forceErrorBlock chk sqrtf d) "F_theta"
      = -(dgetS d "sqrt(g)") * dgetS d "B^zeta" * dgetS d "J^rho"
    ∧ dgetS (forceErrorBlock chk sqrtf d) "F_zeta"
      = dgetS d "sqrt(g)" * dgetS d "B^theta" * dgetS d "J^rho"
    ∧ dgetS (forceErrorBlock chk sqrtf d) "|F|"
      = sqrtf (dgetS (forceErrorBlock chk sqrtf d) "F_rho" ^ 2 * dgetS d "g^rr"
        + dgetS (forceErrorBlock chk sqrtf d) "F_theta" ^ 2 * dgetS d "g^tt"
        + dgetS (forceErrorBlock chk sqrtf d) "F_zeta" ^ 2 * dgetS d "g^zz"
        + 2 * dgetS (forceErrorBlock chk sqrtf d) "F_rho"
            * dgetS (forceErrorBlock chk sqrtf d) "F_theta" * dgetS d "g^rt"
        + 2 * dgetS (forceErrorBlock chk sqrtf d) "F_rho"
            * dgetS (forceErrorBlock chk sqrtf d) "F_zeta" * dgetS d "g^rz"
        + 2 * dgetS (forceErrorBlock chk sqrtf d) "F_theta"
            * dgetS (forceErrorBlock chk sqrtf d) "F_zeta" * dgetS d "g^tz") := by
  refine ⟨?_, ?_, ?_, ?_⟩ <;> simp [forceErrorBlock, h1, h2, h3, h4]

/-- Witness for C2 at concrete data (all checks true, `sqrtf = id`):
`F_rho = -1 + 2 (5*11 - 3*13) = 31`. -/
theorem C2_force_error_witness :
    dgetS (forceErrorBlock (fun _ => true) (fun x : ℚ => x) c2data) "F_rho" = 31 := by
  have h := C2_force_error (fun _ : String => true) (fun x : ℚ => x) c2data
    rfl rfl rfl rfl
  rw [h.1]; simp [c2data]; norm_num

/-- Frame lemma for the guarded-write folds of `compute_R`, `compute_Z`
and `compute_lambda`: keys outside the written list are untouched. -/
theorem lookup_setIfFold (ks : List String) (chk : String → Bool)
    (f : String → Val K) (d : Data K) (key : String) (h : key ∉ ks) :
    dlookup (ks.foldl (fun acc k => dsetIf (chk k) acc k (f k)) d) key
      = dlookup d key := by
  induction ks generalizing d with
  | nil => rfl
  | cons k ks ih =>
    rw [List.foldl_cons, ih _ (fun hm => h (List.mem_cons_of_mem _ hm))]
    have hk : k ≠ key := fun he => h (he ▸ List.mem_cons_self _ _)
    simp [hk]

/-- The key "psi" survives `compute_rotational_transform` unchanged. -/
theorem rotBlock_keep_psi (iv : ℕ → K) (d : Data K) :
    dlookup (computeRotationalTransformBlock iv d) "psi" = dlookup d "psi" := by
  simp [computeRotationalTransformBlock]

/-- The key "psi" survives `compute_lambda` unchanged. -/
theorem lambdaBlock_keep_psi (chk : String → Bool) (Lv : String → K) (d : Data K) :
    dlookup (computeLambdaBlock chk Lv d) "psi" = dlookup d "psi" := by
  exact lookup_setIfFold lKeys chk _ d "psi" (by decide)

/-- The key "psi" survives `compute_R` unchanged. -/
theorem rBlock_keep_psi (chk : String → Bool) (Rv : String → K) (d : Data K) :
    dlookup (computeRBlock chk Rv d) "psi" = dlookup d "psi" := by
  exact lookup_setIfFold rKeys chk _ d "psi" (by decide)

/-- The key "psi" survives `compute_Z` unchanged. -/
theorem zBlock_keep_psi (chk : String → Bool) (Zv : String → K) (d : Data K) :
    dlookup (computeZBlock chk Zv d) "psi" = dlookup d "psi" := by
  exact lookup_setIfFold zKeys chk _ d "psi" (by decide)

/-- The key "psi" survives the covariant-basis block unchanged. -/
theorem covBlock_keep_psi (chk : String → Bool) (d : Data K) :
    dlookup (covariantBasisBlock chk d) "psi" = dlookup d "psi" := by
  simp [covariantBasisBlock]

/-- The key "psi" survives the Jacobian block unchanged. -/
theorem jacBlock_keep_psi (chk : String → Bool) (d : Data K) :
    dlookup (jacobianBlock chk d) "psi" = dlookup d "psi" := by
  simp [jacobianBlock]

/-- The key "psi" survives the field block unchanged. -/
theorem fieldBlock_keep_psi (chk : String → Bool) (d : Data K) :
    dlookup (fieldBlock chk d) "psi" = dlookup d "psi" := by
  simp [fieldBlock]

/-- The covariant-basis block stores the zero array under the key "0"
(line 400), unconditionally. -/
theorem covBlock_zero (chk : String → Bool) (d : Data K) :
    dlookup (covariantBasisBlock chk d) "0" = some (.s 0) := by
  simp [covariantBasisBlock]

/-- The key "0" survives the Jacobian block unchanged. -/
theorem jacBlock_keep_zero (chk : String → Bool) (d : Data K) :
    dlookup (jacobianBlock chk d) "0" = dlookup d "0" := by
  simp [jacobianBlock]

/-- Inside the field block, `B0 = psi_r / sqrt(g)` as a relation between
the output entries (neither "psi_r" nor "sqrt(g)" is written there). -/
theorem fieldBlock_B0_rel (chk : String → Bool) (d : Data K)
    (h0 : chk "B0" = true) :
    dgetS (fieldBlock chk d) "B0"
      = dgetS (fieldBlock chk d) "psi_r" / dgetS (fieldBlock chk d) "sqrt(g)" := by
  simp [fieldBlock, h0]

/-- Inside the field block, `B^rho` is assigned the value of the key "0". -/
theorem fieldBlock_Brho (chk : String → Bool) (d : Data K)
    (h1 : chk "B^rho" = true) :
    dlookup (fieldBlock chk d) "B^rho" = some (.s (dgetS d "0")) := by
  simp [fieldBlock, h1]

/-- Inside the field block, `B^theta = B0 (iota - lambda_z)` as a relation
between the output entries. -/
theorem fieldBlock_Btheta_rel (chk : String → Bool) (d : Data K)
    (h0 : chk "B0" = true) (h2 : chk "B^theta" = true) :
    dgetS (fieldBlock chk d) "B^theta"
      = dgetS (fieldBlock chk d) "B0"
        * (dgetS (fieldBlock chk d) "iota" - dgetS (fieldBlock chk d) "lambda_z") := by
  simp [fieldBlock, h0, h2]

/-- Inside the field block, `B^zeta = B0 (1 + lambda_t)` as a relation
between the output entries. -/
theorem fieldBlock_Bzeta_rel (chk : String → Bool) (d : Data K)
    (h0 : chk "B0" = true) (h3 : chk "B^zeta" = true) :
    dgetS (fieldBlock chk d) "B^zeta"
      = dgetS (fieldBlock chk d) "B0"
        * (1 + dgetS (fieldBlock chk d) "lambda_t") := by
  simp [fieldBlock, h0, h3]

/-- Claim C3: the contravariant-field stage stores
`psi = Psi rho^2 / (2 pi)`, `B0 = psi_r / sqrt(g)`, `B^rho = 0`,
`B^theta = B0 (iota - lambda_z)` and `B^zeta = B0 (1 + lambda_t)` (the
checked keys assumed available). -/
theorem C3_contravariant_field (chk : String → Bool) (Psi rho pi : K)
    (iv : ℕ → K) (Lv Rv Zv : String → K) (d : Data K)
    (h0 : chk "B0" = true) (h1 : chk "B^rho" = true)
    (h2 : chk "B^theta" = true) (h3 : chk "B^zeta" = true) :
    dgetS (contravariantFieldStage chk Psi rho pi iv Lv Rv Zv d) "psi"
      = Psi * rho ^ 2 / (2 * pi)
    ∧ dgetS (contravariantFieldStage chk Psi rho pi iv Lv Rv Zv d) "B0"
      = dgetS (contravariantFieldStage chk Psi rho pi iv Lv Rv Zv d) "psi_r"
        / dgetS (contravariantFieldStage chk Psi rho pi iv Lv Rv Zv d) "sqrt(g)"
    ∧ dgetS (contravariantFieldStage chk Psi rho pi iv Lv Rv Zv d) "B^rho" = 0
    ∧ dgetS (contravariantFieldStage chk Psi rho pi iv Lv Rv Zv d) "B^theta"
      = dgetS (contravariantFieldStage chk Psi rho pi iv Lv Rv Zv d) "B0"
        * (dgetS (contravariantFieldStage chk Psi rho pi iv Lv Rv Zv d) "iota"
           - dgetS (contravariantFieldStage chk Psi rho pi iv Lv Rv Zv d) "lambda_z")
    ∧ dgetS (contravariantFieldStage chk Psi rho pi iv Lv Rv Zv d) "B^zeta"
      = dgetS (contravariantFieldStage chk Psi rho pi iv Lv Rv Zv d) "B0"
        * (1 + dgetS (contravariantFieldStage chk Psi rho pi iv Lv Rv Zv d) "lambda_t") := by
  unfold contravariantFieldStage jacobianStage covariantBasisStage
  refine ⟨?_, ?_, ?_, ?_, ?_⟩
  · rw [dgetS_def, fieldBlock_keep_psi, jacBlock_keep_psi, covBlock_keep_psi,
      zBlock_keep_psi, rBlock_keep_psi, lambdaBlock_keep_psi, rotBlock_keep_psi]
    simp [computeToroidalFluxBlock]
  · exact fieldBlock_B0_rel _ _ h0
  · rw [dgetS_def, fieldBlock_Brho _ _ h1, dgetS_def, jacBlock_keep_zero,
      covBlock_zero]
  · exact fieldBlock_Btheta_rel _ _ h0 h2
  · exact fieldBlock_Bzeta_rel _ _ h0 h3

/-- Witness for C3 at a concrete instance: with `Psi = 1`, `rho = 1` and
the embedded `pi = 3`, the stored `psi` is `1/6`. -/
theorem C3_contravariant_field_witness :
    dgetS (contravariantFieldStage (fun _ => true) 1 1 3 (fun _ => (1 : ℚ))
      (fun _ => 1) (fun _ => 1) (fun _ => 1) []) "psi" = 1 / 6 := by
  have h := C3_contravariant_field (fun _ : String => true) (1 : ℚ) 1 3
    (fun _ => 1) (fun _ => 1) (fun _ => 1) (fun _ => 1) [] rfl rfl rfl rfl
  rw [h.1]; norm_num

/-- Claim C4 (code bug): on `c4data` the stage stores
`B^theta_tt = B0_tt (iota - lambda_z) = 2`, which differs from the full
product-rule expansion
`B0_tt (iota - lambda_z) - 2 B0_t lambda_tz - B0 lambda_ttz = 4`: the
continuation terms of lines 868-905 are dead expression statements. -/
theorem C4_second_derivative_dropped :
    dgetS (fieldBlock (fun _ => true) c4data) "B^theta_tt" = 2
    ∧ dgetS (fieldBlock (fun _ => true) c4data) "B^theta_tt"
      ≠ dgetS (fieldBlock (fun _ => true) c4data) "B0_tt"
          * (dgetS (fieldBlock (fun _ => true) c4data) "iota"
             - dgetS (fieldBlock (fun _ => true) c4data) "lambda_z")
        - 2 * dgetS (fieldBlock (fun _ => true) c4data) "B0_t"
            * dgetS (fieldBlock (fun _ => true) c4data) "lambda_tz"
        - dgetS (fieldBlock (fun _ => true) c4data) "B0"
            * dgetS (fieldBlock (fun _ => true) c4data) "lambda_ttz" := by
  constructor <;> simp [fieldBlock, c4data]

/-- Claim C1 counterexample: at an axis node (`sqrt(g) = 0`, `e_theta`
vanishing, regular limit data present) the contravariant-basis stage does
not store the L'Hopital limiting value for `e^rho`; it stores the value
of the regular formula, which divides by the vanishing `sqrt(g)`. -/
theorem C1_counterexample :
    dgetV (contravariantBasisStage (fun _ => true) (fun _ => 0) (fun _ => 0)
        c1data) "e^rho"
      ≠ eRhoAxisLimit c1data := by
  simp [contravariantBasisStage, dmem, c1data, eRhoAxisLimit, cross3, vdiv3,
    dlookup]

/-- Claim C1 amended: this version of the code performs no axis detection
and no substitution: at every node, axis nodes included, the regular
singular formulas are applied unchanged:
`e^rho = (e_theta x e_zeta) / sqrt(g)` and `B0 = psi_r / sqrt(g)`. -/
theorem C1_amended (chk : String → Bool) (Rv Zv : String → K) (d : Data K)
    (hmem : dmem d "sqrt(g)" = true) (h : chk "e^rho" = true)
    (h0 : chk "B0" = true) :
    dgetV (contravariantBasisStage chk Rv Zv d) "e^rho"
      = vdiv3 (cross3 (dgetV d "e_theta") (dgetV d "e_zeta")) (dgetS d "sqrt(g)")
    ∧ dgetS (fieldBlock chk d) "B0" = dgetS d "psi_r" / dgetS d "sqrt(g)" := by
  constructor
  · simp [contravariantBasisStage, hmem, h]
  · simp [fieldBlock, h0]

/-- Witness for the amended C1 at the concrete axis node: the stored
`e^rho` is the zero vector produced by the singular division, not the
finite limit `(0, -3, 2)`. -/
theorem C1_amended_witness :
    dgetV (contravariantBasisStage (fun _ => true) (fun _ => (0 : ℚ))
        (fun _ => 0) c1data) "e^rho" = ⟨0, 0, 0⟩ := by
  have h := C1_amended (fun _ : String => true) (fun _ => (0 : ℚ)) (fun _ => 0)
    c1data rfl rfl rfl
  rw [h.1]; simp [c1data, cross3, vdiv3, dlookup]

/-- One family of `check_derivs`: when a Transform is supplied whenever
the family is consulted, the flag is a boolean equivalent to the
requirement relation. -/
theorem familyFlag_spec (req : Option (List Deriv)) (tr : Option (Transform K))
    (h : req.isSome → tr.isSome) :
    ∃ b, familyFlag req tr = .ok b ∧ (b = true ↔ familySat req tr) := by
  cases req with
  | none =>
    refine ⟨true, rfl, ?_⟩
    simp [familySat]
  | some ds =>
    cases tr with
    | none => simp at h
    | some t =>
      refine ⟨ds.all (fun x => t.derivs.contains x), rfl, ?_⟩
      constructor
      · intro hall ds2 hds x hx
        obtain rfl : ds = ds2 := by injection hds
        exact ⟨t, rfl, List.elem_iff.mp (List.all_eq_true.mp hall x hx)⟩
      · intro hsat
        apply List.all_eq_true.mpr
        intro x hx
        obtain ⟨t2, ht2, hmem⟩ := hsat ds rfl x hx
        obtain rfl : t = t2 := by injection ht2
        exact List.elem_iff.mpr hmem

/-- `check_derivs` under suppliedness: it returns a boolean (it cannot
raise), true exactly when all three requirement relations hold. -/
theorem checkDerivs_spec (reg : String → Entry) (key : String)
    (Rt Zt Lt : Option (Transform K))
    (hR : (reg key).Rderivs.isSome → Rt.isSome)
    (hZ : (reg key).Zderivs.isSome → Zt.isSome)
    (hL : (reg key).Lderivs.isSome → Lt.isSome) :
    ∃ b, checkDerivs reg key Rt Zt Lt = .ok b
      ∧ (b = true ↔ familySat (reg key).Rderivs Rt
          ∧ familySat (reg key).Zderivs Zt ∧ familySat (reg key).Lderivs Lt) := by
  obtain ⟨rb, hrb, hriff⟩ := familyFlag_spec (reg key).Rderivs Rt hR
  obtain ⟨zb, hzb, hziff⟩ := familyFlag_spec (reg key).Zderivs Zt hZ
  obtain ⟨lb, hlb, hliff⟩ := familyFlag_spec (reg key).Lderivs Lt hL
  refine ⟨rb && zb && lb, ?_, ?_⟩
  · simp only [checkDerivs, hrb, hzb, hlb]
    rfl
  · simp [Bool.and_eq_true, hriff, hziff, hliff, and_assoc]

/-- Characterisation of the `compute_R` fold over a duplicate-free key
list whose registry rows are well formed (nonempty `R_derivs`, no
`Z_derivs`/`L_derivs`): it never errors, leaves keys outside the list
untouched, and leaves a listed key untouched whenever its check fails. -/
theorem computeRFold_spec (reg : String → Entry) (Rt : Transform K)
    (ks : List String)
    (hwf : ∀ k ∈ ks, (reg k).Zderivs = none ∧ (reg k).Lderivs = none ∧
      ∃ d0 ds, (reg k).Rderivs = some (d0 :: ds))
    (hnd : ks.Nodup) (d : Data K) :
    ∃ d', ks.foldlM (computeRRegStep reg Rt) d = .ok d'
      ∧ (∀ key, key ∉ ks → dlookup d' key = dlookup d key)
      ∧ (∀ k ∈ ks, checkDerivs reg k (some Rt) none none = .ok false →
          dlookup d' k = dlookup d k) := by
  induction ks generalizing d with
  | nil =>
    exact ⟨d, rfl, fun _ _ => rfl, fun k hk => absurd hk (List.not_mem_nil k)⟩
  | cons k ks ih =>
    obtain ⟨hz, hl, d0, ds, hr⟩ := hwf k (List.mem_cons_self _ _)
    have hwf2 : ∀ x ∈ ks, (reg x).Zderivs = none ∧ (reg x).Lderivs = none ∧
        ∃ d0 ds, (reg x).Rderivs = some (d0 :: ds) :=
      fun x hx => hwf x (List.mem_cons_of_mem _ hx)
    have hnd2 : ks.Nodup := (List.nodup_cons.mp hnd).2
    have hknotin : k ∉ ks := (List.nodup_cons.mp hnd).1
    have hchk : checkDerivs reg k (some Rt) none none
        = .ok ((d0 :: ds).all (fun x => Rt.derivs.contains x)) := by
      simp only [checkDerivs, familyFlag, hz, hl, hr]
      show Except.ok (((d0 :: ds).all fun x => Rt.derivs.contains x) && true && true) = _
      simp
    by_cases hb : ((d0 :: ds).all (fun x => Rt.derivs.contains x)) = true
    · obtain ⟨d', hfold, hframe, hskip⟩ := ih hwf2 hnd2 (dset d k (.s (Rt.eval d0)))
      refine ⟨d', ?_, ?_, ?_⟩
      · rw [List.foldlM_cons]
        have hstep : computeRRegStep reg Rt d k
            = .ok (dset d k (.s (Rt.eval d0))) := by
          simp only [computeRRegStep, hchk, hb, hr]
          rfl
        rw [hstep]
        exact hfold
      · intro key hkey
        rw [hframe key (fun hm => hkey (List.mem_cons_of_mem _ hm))]
        exact dlookup_dset_ne _ _ _ _ (fun he => hkey (he ▸ List.mem_cons_self _ _))
      · intro x hx hfalse
        rcases List.mem_cons.mp hx with he | hm
        · subst he
          rw [hchk] at hfalse
          have hfb : ((d0 :: ds).all fun x => Rt.derivs.contains x) = false := by
            injection hfalse
          rw [hb] at hfb
          exact Bool.noConfusion hfb
        · rw [hskip x hm hfalse]
          exact dlookup_dset_ne _ _ _ _ (fun he => hknotin (he ▸ hm))
    · obtain ⟨d', hfold, hframe, hskip⟩ := ih hwf2 hnd2 d
      refine ⟨d', ?_, ?_, ?_⟩
      · rw [List.foldlM_cons]
        have hstep : computeRRegStep reg Rt d k = .ok d := by
          have hb2 : ((d0 :: ds).all fun x => Rt.derivs.contains x) = false := by
            simpa using hb
          simp only [computeRRegStep, hchk, hb2]
          rfl
        rw [hstep]
        exact hfold
      · intro key hkey
        exact hframe key (fun hm => hkey (List.mem_cons_of_mem _ hm))
      · intro x hx hfalse
        rcases List.mem_cons.mp hx with he | hm
        · subst he
          exact hframe x hknotin
        · exact hskip x hm hfalse

/-- Claim C5 counterexample: the claim promises a boolean and no raise
for ANY combination of supplied Transforms, but calling `check_derivs` on
a key whose registry row consults `R_derivs` while omitting the R
Transform dereferences `None.derivatives` (lines 32-35) and raises
AttributeError, modelled as `Except.error`: no boolean is returned. -/
theorem C5_counterexample :
    checkDerivs reg0 "R" (none : Option (Transform ℚ)) none none
      = .error ()
    ∧ ∀ b, checkDerivs reg0 "R" (none : Option (Transform ℚ)) none none
        ≠ .ok b := by
  refine ⟨rfl, ?_⟩
  intro b h
  exact absurd (rfl.trans h : Except.error () = Except.ok b) (by simp)

/-- Claim C5 amended: under the call-site discipline (a Transform
supplied for every family the key's registry row consults; the twenty R
keys carry well-formed rows), `check_derivs` returns a boolean and never
raises, the boolean is true exactly when every required derivative order
is available, and `compute_R` silently leaves out (never raises over) any
key whose check is false.  Omitting a consulted family's Transform
instead raises, per the counterexample. -/
theorem C5_check_derivs (reg : String → Entry) (key : String)
    (Rt Zt Lt : Option (Transform K))
    (hR : (reg key).Rderivs.isSome → Rt.isSome)
    (hZ : (reg key).Zderivs.isSome → Zt.isSome)
    (hL : (reg key).Lderivs.isSome → Lt.isSome)
    (Rt2 : Transform K) (d : Data K)
    (hwf : ∀ k ∈ rKeys, (reg k).Zderivs = none ∧ (reg k).Lderivs = none ∧
      ∃ d0 ds, (reg k).Rderivs = some (d0 :: ds)) :
    (∃ b, checkDerivs reg key Rt Zt Lt = .ok b)
    ∧ (checkDerivs reg key Rt Zt Lt = .ok true
        ↔ familySat (reg key).Rderivs Rt ∧ familySat (reg key).Zderivs Zt
          ∧ familySat (reg key).Lderivs Lt)
    ∧ (∃ d', computeRReg reg Rt2 d = .ok d'
        ∧ ∀ k ∈ rKeys, checkDerivs reg k (some Rt2) none none = .ok false →
            dlookup d' k = dlookup d k) := by
  obtain ⟨b, hb, hiff⟩ := checkDerivs_spec reg key Rt Zt Lt hR hZ hL
  have hnd : rKeys.Nodup := by decide
  obtain ⟨d', hfold, _, hskip⟩ := computeRFold_spec reg Rt2 rKeys hwf hnd d
  refine ⟨⟨b, hb⟩, ?_, ⟨d', hfold, hskip⟩⟩
  constructor
  · intro htrue
    rw [hb] at htrue
    exact hiff.mp (by injection htrue)
  · intro hsat
    rw [hb, hiff.mpr hsat]

/-- Witness for C5: a registry row requiring the value derivative of R,
and a Transform that has it: the check returns `ok true`. -/
theorem C5_check_derivs_witness :
    checkDerivs reg0 "R" (some t0) none none = .ok true := by
  have h := C5_check_derivs reg0 "R" (some t0) none none
    (fun _ => rfl)
    (by intro hx; simp [reg0] at hx)
    (by intro hx; simp [reg0] at hx)
    t0 []
    (by intro k _; exact ⟨rfl, rfl, ⟨0, 0, 0⟩, [], rfl⟩)
  refine h.2.1.mpr ⟨?_, ?_, ?_⟩ <;> simp [reg0, familySat, t0]

/-- Claim C9 counterexample: `compute_R` overwrites a key already present
in the data dictionary passed to it (here `"R" = 3` becomes the freshly
transformed value 5), so the dictionary is not append-only. -/
theorem C9_counterexample :
    dlookup (computeRBlock (fun _ => true) (fun _ => (5 : ℚ))
        [("R", Val.s 3)]) "R" = some (.s 5)
    ∧ Val.s (5 : ℚ) ≠ Val.s 3 := by
  constructor
  · simp [computeRBlock, rKeys]
  · simp

/-- Claim C9 amended: the only memoization-by-presence guard is the
`sqrt(g)` check of `compute_contravariant_basis`; with `sqrt(g)` present
that stage recomputes nothing and only adds its own three keys, while
`compute_R` always overwrites the keys whose check passes with freshly
computed values. -/
theorem C9_amended (chk : String → Bool) (Rv Zv : String → K) (d : Data K)
    (hmem : dmem d "sqrt(g)" = true) (key : String)
    (h1 : "e^rho" ≠ key) (h2 : "e^theta" ≠ key) (h3 : "e^zeta" ≠ key)
    (hR : chk "R" = true) (d2 : Data K) :
    dlookup (contravariantBasisStage chk Rv Zv d) key = dlookup d key
    ∧ dlookup (computeRBlock chk Rv d2) "R" = some (.s (Rv "R")) := by
  constructor
  · simp [contravariantBasisStage, hmem, h1, h2, h3]
  · simp [computeRBlock, rKeys, hR]

/-- Witness for the amended C9: with `sqrt(g)` present the basis stage
leaves `sqrt(g)` itself untouched, and `compute_R` rewrites `"R"`. -/
theorem C9_amended_witness :
    dlookup (contravariantBasisStage (fun _ => true) (fun _ => (5 : ℚ))
        (fun _ => 0) [("sqrt(g)", Val.s 4)]) "sqrt(g)" = some (.s 4)
    ∧ dlookup (computeRBlock (fun _ => true) (fun _ => (5 : ℚ))
        [("R", Val.s 3)]) "R" = some (.s 5) := by
  have h := C9_amended (fun _ : String => true) (fun _ => (5 : ℚ)) (fun _ => 0)
    [("sqrt(g)", Val.s 4)] rfl "sqrt(g)" (by decide) (by decide) (by decide)
    rfl [("R", Val.s 3)]
  exact ⟨by rw [h.1]; rfl, h.2⟩

/-- Claim C10 counterexample: the first (no-`data`) call to
`compute_toroidal_flux` stores `"psi"` in that function's own default
dictionary, yet a following no-`data` call to the unrelated `compute_R`
returns a dictionary NOT containing `"psi"`: the functions do not share a
single default object. -/
theorem C10_counterexample :
    dlookup c10first.1 "psi" = some (.s (1 * 1 ^ 2 / (2 * 3)))
    ∧ dlookup c10second.1 "psi" = none := by
  constructor <;>
    simp [c10first, c10second, callToroidalFlux, callComputeR, initState,
      computeToroidalFluxBlock, computeRBlock, rKeys]

/-- Claim C10 amended: each compute function owns one persistent default
dictionary.  Two successive no-`data` calls to the same function
(`compute_R`) chain through that one object: the second call computes on
the first call's result, the returned dictionary is the stored default
itself, and keys written by the first call are still present in the
second call's result when the second call does not rewrite them. -/
theorem C10_amended (chk1 chk2 : String → Bool) (Rv1 Rv2 : String → K)
    (s : ModuleState K) (h1 : chk1 "R" = true) (h2 : ∀ k, chk2 k = false) :
    (callComputeR chk2 Rv2 none (callComputeR chk1 Rv1 none s).2).1
      = computeRBlock chk2 Rv2 (callComputeR chk1 Rv1 none s).1
    ∧ (callComputeR chk2 Rv2 none (callComputeR chk1 Rv1 none s).2).2.rDefault
      = (callComputeR chk2 Rv2 none (callComputeR chk1 Rv1 none s).2).1
    ∧ dlookup (callComputeR chk2 Rv2 none (callComputeR chk1 Rv1 none s).2).1 "R"
      = some (.s (Rv1 "R")) := by
  refine ⟨rfl, rfl, ?_⟩
  simp [callComputeR, computeRBlock, rKeys, h1, h2]

/-- Witness for the amended C10: concrete chained no-`data` calls to
`compute_R`. -/
theorem C10_amended_witness :
    dlookup (callComputeR (fun _ => false) (fun _ => (0 : ℚ)) none
        (callComputeR (fun _ => true) (fun _ => (7 : ℚ)) none initState).2).1 "R"
      = some (.s 7) := by
  have h := C10_amended (fun _ : String => true) (fun _ : String => false)
    (fun _ => (7 : ℚ)) (fun _ => 0) initState rfl (fun _ => rfl)
  exact h.2.2

/-- Multiplying every spacing component by `scl` multiplies every weight
by `scl ^ 3`; summed over the grid this factors out. -/
theorem sum_scaled_prods (l : List (GridRow K)) (scl : K) :
    ((l.map (fun p : GridRow K =>
        (p.1, (p.2.1 * scl, p.2.2.1 * scl, p.2.2.2 * scl)))).map
      (fun p : GridRow K => p.2.1 * p.2.2.1 * p.2.2.2)).sum
    = (l.map (fun p : GridRow K => p.2.1 * p.2.2.1 * p.2.2.2)).sum * scl ^ 3 := by
  rw [List.map_map, ← List.sum_map_mul_right]
  apply congrArg
  apply List.map_congr_left
  intro p _
  show p.2.1 * scl * (p.2.2.1 * scl) * (p.2.2.2 * scl) = p.2.1 * p.2.2.1 * p.2.2.2 * scl ^ 3
  ring

/-- Claim C6 amended: any grid that passes through `_scale_weights` (base
`Grid`, `LinearGrid`, `ConcentricGrid`, at construction and after
`change_resolution` alike) leaves it with weights summing exactly to
`4 pi^2`, provided the pre-scale spacing-product sum `S` is nonzero and
the cube root obeys its defining law at `4 pi^2 / S`.  `QuadratureGrid`
bypasses this scaling and its weight sum is not `4 pi^2` (see the
counterexample). -/
theorem C6_weight_sum [FloorRing K] (pi : K) (NFP : ℕ) (cbrt : K → K)
    (g : List (GridRow K))
    (hs : cbrt (4 * pi ^ 2 / swS pi NFP cbrt g) ^ 3
        = 4 * pi ^ 2 / swS pi NFP cbrt g)
    (hS : swS pi NFP cbrt g ≠ 0) :
    (scaleWeights pi NFP cbrt g).2.sum = 4 * pi ^ 2 := by
  have hsw : (((g.zip (swCounts pi NFP g)).map (fun pc =>
      (pc.1.1, (pc.1.2.1 / cbrt pc.2, pc.1.2.2.1 / cbrt pc.2,
        pc.1.2.2.2 / cbrt pc.2)))).map
      (fun p : GridRow K => p.2.1 * p.2.2.1 * p.2.2.2)).sum
      = swS pi NFP cbrt g := by
    rw [List.map_map]
    rfl
  simp only [scaleWeights]
  simp only [hsw]
  rw [sum_scaled_prods _ (cbrt (4 * pi ^ 2 / swS pi NFP cbrt g)), hsw, hs]
  rw [mul_comm, div_mul_cancel₀ _ hS]

/-- Witness for the amended C6: one node with spacing `(1, 2, 2)` and the
embedded `pi = 1`: the weight sum is exactly `4 pi^2 = 4`. -/
theorem C6_weight_sum_witness :
    (scaleWeights (1 : ℚ) 1 (fun x => x) [((1, 0, 0), (1, 2, 2))]).2.sum
      = 4 * 1 ^ 2 := by
  have hval : swS (1 : ℚ) 1 (fun x => x) [((1, 0, 0), (1, 2, 2))] = 4 := by
    norm_num [swS, swCounts, fmod, nodeRho, nodeTheta, nodeZeta]
  have h := C6_weight_sum (1 : ℚ) 1 (fun x => x) [((1, 0, 0), (1, 2, 2))]
    (by rw [hval]; norm_num) (by rw [hval]; norm_num)
  exact h

/-- Claim C6 counterexample: the QuadratureGrid weights are never
rescaled; at `L = M = N = 0` (one-point Gauss-Jacobi radial rule: node
`2/3`, weight `1/2`) their sum is `3 pi^2`, not `4 pi^2` (stated at the
embedded value `pi = 22/7`; the radial sum `3/4` is exact for every
`pi`). -/
theorem C6_counterexample :
    (quadratureWeights ((22 : ℚ)/7) [(2/3, 1/2)] 0 0).sum = 3 * (22/7 : ℚ) ^ 2
    ∧ (3 : ℚ) * (22/7) ^ 2 ≠ 4 * (22/7) ^ 2 := by
  constructor
  · have hr : List.range 1 = [0] := rfl
    norm_num [quadratureWeights, hr, List.flatMap_cons, List.flatMap_nil]
  · norm_num

/-- `findAxisAux` depends only on the rho coordinates of the rows. -/
theorem findAxisAux_congr (i : ℕ) (g1 g2 : List (GridRow K))
    (h : g1.map nodeRho = g2.map nodeRho) :
    findAxisAux i g1 = findAxisAux i g2 := by
  induction g1 generalizing i g2 with
  | nil =>
    cases g2 with
    | nil => rfl
    | cons b bs => simp at h
  | cons a as ih =>
    cases g2 with
    | nil => simp at h
    | cons b bs =>
      simp only [List.map_cons, List.cons.injEq] at h
      simp only [findAxisAux, h.1, ih (i + 1) bs h.2]

/-- `_scale_weights` preserves the node coordinates, so `_find_axis`
computed after it agrees with `_find_axis` on its input. -/
theorem findAxis_scaleWeights [FloorRing K] (pi : K) (NFP : ℕ) (cbrt : K → K)
    (g : List (GridRow K)) :
    findAxis (scaleWeights pi NFP cbrt g).1 = findAxis g := by
  apply findAxisAux_congr
  have hlen : g.length ≤ (swCounts pi NFP g).length := by
    simp [swCounts]
  calc (scaleWeights pi NFP cbrt g).1.map nodeRho
      = (g.zip (swCounts pi NFP g)).map (nodeRho ∘ Prod.fst) := by
        simp only [scaleWeights, List.map_map]
        rfl
    _ = ((g.zip (swCounts pi NFP g)).map Prod.fst).map nodeRho := by
        rw [List.map_map]
    _ = g.map nodeRho := by rw [List.map_fst_zip _ _ hlen]

/-- Claim C8 amended: `LinearGrid.change_resolution` regenerates the grid
only when L, M or N differs (NFP alone is stored but triggers no
regeneration); the unique-count caches are never refreshed (they keep
their previous values); when regeneration happens, the axis cache is
recomputed and consistent with the new rows. -/
theorem C8_change_resolution [FloorRing K] (pi : K) (cbrt : K → K)
    (L M N : ℕ) (nfp : Option ℕ) (s : LinearGridState K) :
    ((L = s.L ∧ M = s.M ∧ N = s.N) →
      linearChangeResolution pi cbrt L M N nfp s
        = some { s with NFP := nfp.getD s.NFP })
    ∧ (∀ s2, linearChangeResolution pi cbrt L M N nfp s = some s2 →
        s2.numRho = s.numRho ∧ s2.numTheta = s.numTheta ∧ s2.numZeta = s.numZeta)
    ∧ (∀ s2, linearChangeResolution pi cbrt L M N nfp s = some s2 →
        ¬(L = s.L ∧ M = s.M ∧ N = s.N) → s2.axis = findAxis s2.rows) := by
  refine ⟨?_, ?_, ?_⟩
  · rintro ⟨h1, h2, h3⟩
    simp [linearChangeResolution, h1, h2, h3]
  · intro s2 hs2
    simp only [linearChangeResolution] at hs2
    split at hs2
    · split at hs2
      · exact absurd hs2 (by simp)
      · obtain rfl : _ = s2 := by injection hs2
        exact ⟨rfl, rfl, rfl⟩
    · obtain rfl : _ = s2 := by injection hs2
      exact ⟨rfl, rfl, rfl⟩
  · intro s2 hs2 hne
    simp only [linearChangeResolution] at hs2
    split at hs2
    · split at hs2
      · exact absurd hs2 (by simp)
      · obtain rfl : _ = s2 := by injection hs2
        exact (findAxis_scaleWeights _ _ _ _).symm
    · next hcond =>
      push_neg at hcond
      exact absurd ⟨hcond.1.symm ▸ rfl, hcond.2.1.symm ▸ rfl, hcond.2.2.symm ▸ rfl⟩ hne

/-- Witness for the amended C8: a no-op call that only stores the new
NFP. -/
theorem C8_change_resolution_witness :
    linearChangeResolution (1 : ℚ) (fun x => x) 3 4 5 (some 7)
      { L := 3, M := 4, N := 5, NFP := 1, sym := false, endpoint := false,
        rows := [], weights := [], axis := [], numRho := 0, numTheta := 0,
        numZeta := 0 }
      = some ({ L := 3, M := 4, N := 5, NFP := 7, sym := false,
                endpoint := false, rows := [], weights := [], axis := [],
                numRho := 0, numTheta := 0, numZeta := 0 } : LinearGridState ℚ) := by
  have h := C8_change_resolution (1 : ℚ) (fun x => x) 3 4 5 (some 7)
    { L := 3, M := 4, N := 5, NFP := 1, sym := false, endpoint := false,
      rows := [], weights := [], axis := [], numRho := 0, numTheta := 0,
      numZeta := 0 }
  exact h.1 ⟨rfl, rfl, rfl⟩

/-- Claim C8 counterexample: on `LinearGrid(L=0, M=0, N=1, NFP=1)`,
`change_resolution(0, 0, 1, NFP=2)` stores the new NFP but does NOT
regenerate the nodes (they still fill the old NFP=1 zeta period and
differ from what regeneration under NFP=2 would produce), and
`change_resolution(1, 0, 1)` regenerates to two radial surfaces while the
cached `num_rho` stays 1, inconsistent with the regenerated nodes. -/
theorem C8_counterexample :
    (c8s1.map (fun s => s.rows) = c8s0.map (fun s => s.rows)
      ∧ c8s1.map (fun s => s.NFP) = some 2
      ∧ c8s0.map (fun s => s.NFP) = some 1
      ∧ c8s0.map (fun s => s.rows.map (fun p => p.1))
          ≠ some ((linearCreateNodes (1 : ℚ) 0 0 1 2 false false false).map
              (fun p => p.1)))
    ∧ (c8s2.map (fun s => s.numRho) = some 1
      ∧ c8s2.map (fun s => countUnique (s.rows.map nodeRho)) = some 2) := by
  have hcr : linearCreateNodes (1 : ℚ) 0 0 1 1 true false false
      = [((1, 0, 0), (1, 2, 2/3)), ((1, 0, 2/3), (1, 2, 2/3)),
         ((1, 0, 4/3), (1, 2, 2/3))] := by
    norm_num [linearCreateNodes, listMax, listMin, List.range_succ]
  have h0 : c8s0 = some c8s0Lit := by
    rw [c8s0]
    unfold linearGridInit
    rw [show c8pi = (1 : ℚ) from rfl, show c8cbrt = (fun x : ℚ => x) from rfl, hcr]
    norm_num [c8pi, c8cbrt, c8s0Lit, enforceSymmetry, sortRows, insertRow,
      rowLe, findAxis, findAxisAux, countUnique, uniqueSorted, insertUnique,
      scaleWeights, swCounts, fmod, nodeRho, nodeTheta, nodeZeta,
      List.count_cons, List.count_nil, Prod.mk.injEq, Prod.ext_iff,
      Prod.fst_zero, Prod.snd_zero]
  have h1 : c8s1 = some { c8s0Lit with NFP := 2 } := by
    rw [c8s1, h0]
    show linearChangeResolution c8pi c8cbrt 0 0 1 (some 2) c8s0Lit = _
    norm_num [linearChangeResolution, c8s0Lit]
  have hcr2 : linearCreateNodes (1 : ℚ) 1 0 1 1 false false false
      = [((1/2, 0, 0), (1/4, 2, 2/3)), ((1/2, 0, 2/3), (1/4, 2, 2/3)),
         ((1/2, 0, 4/3), (1/4, 2, 2/3)), ((1, 0, 0), (1/4, 2, 2/3)),
         ((1, 0, 2/3), (1/4, 2, 2/3)), ((1, 0, 4/3), (1/4, 2, 2/3))] := by
    norm_num [linearCreateNodes, listMax, listMin, List.range_succ]
  have h2 : c8s2 = some c8s2Lit := by
    rw [c8s2, h0]
    show linearChangeResolution c8pi c8cbrt 1 0 1 none c8s0Lit = _
    unfold linearChangeResolution
    norm_num [c8pi, c8cbrt, c8s0Lit, c8s2Lit, hcr2, enforceSymmetry, sortRows,
      insertRow, rowLe, findAxis, findAxisAux, scaleWeights, swCounts, fmod,
      nodeRho, nodeTheta, nodeZeta, List.count_cons, List.count_nil,
      Prod.mk.injEq, Prod.ext_iff, Prod.fst_zero, Prod.snd_zero]
  refine ⟨⟨?_, ?_, ?_, ?_⟩, ?_, ?_⟩
  · rw [h0, h1]; rfl
  · rw [h1]; rfl
  · rw [h0]; rfl
  · rw [h0]
    norm_num [c8s0Lit, linearCreateNodes, listMax, listMin, List.range_succ]
  · rw [h2]; rfl
  · rw [h2]
    norm_num [c8s2Lit, countUnique, uniqueSorted, insertUnique, nodeRho]

/-- Membership in `insertUnique`. -/
theorem mem_insertUnique (x a : K) (l : List K) :
    a ∈ insertUnique x l ↔ a = x ∨ a ∈ l := by
  induction l with
  | nil => simp [insertUnique]
  | cons y ys ih =>
    simp only [insertUnique]
    split
    · simp [List.mem_cons]
    · split
      · next hxy =>
        subst hxy
        simp only [List.mem_cons]
        constructor
        · intro h; exact Or.inr h
        · rintro (h | h)
          · exact Or.inl h
          · exact h
      · simp only [List.mem_cons, ih]
        constructor
        · rintro (h | h | h)
          · exact Or.inr (Or.inl h)
          · exact Or.inl h
          · exact Or.inr (Or.inr h)
        · rintro (h | h | h)
          · exact Or.inr (Or.inl h)
          · exact Or.inl h
          · exact Or.inr (Or.inr h)

/-- `uniqueSorted` has the same members as its input. -/
theorem mem_uniqueSorted (l : List K) (a : K) :
    a ∈ uniqueSorted l ↔ a ∈ l := by
  induction l with
  | nil => simp [uniqueSorted]
  | cons x xs ih =>
    show a ∈ insertUnique x (uniqueSorted xs) ↔ _
    rw [mem_insertUnique, ih]
    simp [List.mem_cons]

/-- Reading a mapped list at the index of a member recovers the image of
that member. -/
theorem getD_map_indexOf (l : List K) (f : K → K) (r : K) (h : r ∈ l) :
    (l.map f).getD (l.indexOf r) 0 = f r := by
  induction l with
  | nil => cases h
  | cons a as ih =>
    by_cases hr : r = a
    · subst hr
      simp [List.indexOf_cons_self]
    · have hmem : r ∈ as := by
        rcases List.mem_cons.mp h with h1 | h1
        · exact absurd h1 hr
        · exact h1
      have hne : (a == r) = false := beq_false_of_ne (fun h => hr h.symm)
      simp only [List.map_cons, List.indexOf_cons, hne, cond_false,
        List.getD_cons_succ]
      exact ih hmem

/-- Counting a value in a mapped list equals the length of the matching
filter of the original list. -/
theorem count_map_eq_length_filter {α : Type} (l : List α) (f : α → K) (r : K) :
    (l.map f).count r = (l.filter (fun p => decide (f p = r))).length := by
  induction l with
  | nil => simp
  | cons a as ih =>
    by_cases h : f a = r
    · simp [List.count_cons, h, ih]
    · simp [List.count_cons, h, ih]

/-- Sum of a function constant on a list. -/
theorem sum_map_const {α : Type} (l : List α) (f : α → K) (c : K)
    (h : ∀ x ∈ l, f x = c) : (l.map f).sum = (l.length : K) * c := by
  induction l with
  | nil => simp
  | cons a as ih =>
    rw [List.map_cons, List.sum_cons, h a (List.mem_cons_self _ _),
      ih (fun x hx => h x (List.mem_cons_of_mem _ hx))]
    simp only [List.length_cons]
    push_cast
    ring

/-- Splitting a filtered length along a second boolean predicate. -/
theorem length_filter_split {α : Type} (l : List α) (p q : α → Bool) :
    (l.filter p).length
      = (l.filter (fun x => p x && q x)).length
        + (l.filter (fun x => p x && !q x)).length := by
  induction l with
  | nil => simp
  | cons a as ih =>
    by_cases hp : p a
    · by_cases hq : q a
      · simp [List.filter_cons, hp, hq, ih]
        omega
      · simp [List.filter_cons, hp, hq, ih]
        omega
    · simp [List.filter_cons, hp, ih]

/-- Two successive filters collapse to the conjunction. -/
theorem filter_filter_and {α : Type} (p q : α → Bool) (l : List α) :
    (l.filter p).filter q = l.filter (fun a => p a && q a) := by
  induction l with
  | nil => rfl
  | cons a as ih =>
    by_cases hp : p a
    · by_cases hq : q a <;> simp [List.filter_cons, hp, hq, ih]
    · simp [List.filter_cons, hp, ih]

/-- A filter over a mapped list is the mapped filter of the composed
predicate. -/
theorem filter_map_comm {α β : Type} (f : α → β) (p : β → Bool) (l : List α) :
    (l.map f).filter p = (l.filter (fun a => p (f a))).map f := by
  induction l with
  | nil => rfl
  | cons a as ih =>
    by_cases h : p (f a) <;> simp [List.filter_cons, h, ih]

/-- The broadcast read of the count vector inside `enforceSymmetry`
recovers the per-surface count when the vector is aligned with the
surfaces. -/
theorem vAtValue (cnt : K → K) (uniq : List K) (r : K) (h : r ∈ uniq) :
    (if uniq.length = 1 then (uniq.map cnt).headD 0
     else (uniq.map cnt).getD (uniq.indexOf r) 0) = cnt r := by
  by_cases h1 : uniq.length = 1
  · rw [if_pos h1]
    obtain ⟨a, rfl⟩ := List.length_eq_one.mp h1
    rcases List.mem_singleton.mp h with rfl
    rfl
  · rw [if_neg h1]
    exact getD_map_indexOf uniq cnt r h

/-- When every rho surface has at least one deleted node (the aligned
case), `_enforce_symmetry` succeeds and returns the deletion-filtered grid
with every row's theta spacing rescaled by `k / (k - d)`. -/
theorem enforceSymmetry_eq_of_aligned (pi : K) (g : List (GridRow K))
    (halign : uniqueSorted (gridDelRhos pi g) = uniqueSorted (gridRhos g)) :
    enforceSymmetry pi true g
      = some ((g.map (rescaleRow pi g)).filter
          (fun p => !decide (pi < nodeTheta p))) := by
  simp only [enforceSymmetry, if_true, halign, lt_self_iff_false, if_false,
    List.length_map]
  rw [if_pos (Or.inl trivial)]
  refine congrArg some (congrArg _ (List.map_congr_left ?_))
  intro p hp
  have hmem : nodeRho p ∈ uniqueSorted (gridRhos g) :=
    (mem_uniqueSorted _ _).mpr (List.mem_map_of_mem nodeRho hp)
  have hv := vAtValue (fun r => (((gridDelRhos pi g).count r : ℕ) : K))
    (uniqueSorted (gridRhos g)) (nodeRho p) hmem
  simp only [rescaleRow]
  rw [hv]

/-- C7 (amended): when every rho surface has at least one `theta > pi`
node (so that the deletion-count vector aligns with the surfaces),
`_enforce_symmetry` removes exactly the nodes with `theta > pi`, rescaling
each surviving row's theta spacing by `k / (k - d)`; consequently no
retained node has `theta > pi`, and on every rho ring with uniform theta
spacing and at least one survivor the ring's total theta-weight is
unchanged.  (Without the alignment condition the broadcast fails and the
call raises, per the counterexample.) -/
theorem C7_enforce_symmetry (pi : K) (g : List (GridRow K))
    (halign : uniqueSorted (gridDelRhos pi g) = uniqueSorted (gridRhos g)) :
    enforceSymmetry pi true g
      = some ((g.map (rescaleRow pi g)).filter
          (fun p => !decide (pi < nodeTheta p)))
    ∧ (∀ g2, enforceSymmetry pi true g = some g2 →
        ∀ p ∈ g2, ¬ pi < nodeTheta p)
    ∧ (∀ g2, enforceSymmetry pi true g = some g2 →
        ∀ rho dt,
          (∀ p ∈ g, nodeRho p = rho → spaceTheta p = dt) →
          (gridDelRhos pi g).count rho < (gridRhos g).count rho →
          ((g2.filter (fun p => decide (nodeRho p = rho))).map spaceTheta).sum
            = ((g.filter (fun p => decide (nodeRho p = rho))).map
                spaceTheta).sum) := by
  have hmain := enforceSymmetry_eq_of_aligned pi g halign
  refine ⟨hmain, ?_, ?_⟩
  · intro g2 hg2 p hp
    rw [hmain] at hg2
    have hg2' := Option.some.inj hg2
    subst hg2'
    have := (List.mem_filter.mp hp).2
    simpa using this
  · intro g2 hg2 rho dt huni hlt
    rw [hmain] at hg2
    have hg2' := Option.some.inj hg2
    subst hg2'
    have hkN : ((gridRhos g).count rho : K)
        = ((g.filter (fun p => decide (nodeRho p = rho))).length : K) := by
      rw [show gridRhos g = g.map nodeRho from rfl,
        count_map_eq_length_filter g nodeRho rho]
    -- collapse the two filters on the left-hand side
    rw [filter_filter_and, filter_map_comm]
    have hpred : ∀ a ∈ g,
        ((!decide (pi < nodeTheta (rescaleRow pi g a)))
            && decide (nodeRho (rescaleRow pi g a) = rho))
          = ((!decide (pi < nodeTheta a)) && decide (nodeRho a = rho)) :=
      fun a _ => rfl
    rw [List.filter_congr hpred, List.map_map]
    -- both sides are sums of constants
    have hcast : ((gridDelRhos pi g).count rho : K)
        < ((gridRhos g).count rho : K) := by exact_mod_cast hlt
    have hne : ((gridRhos g).count rho : K)
        - ((gridDelRhos pi g).count rho : K) ≠ 0 :=
      sub_ne_zero_of_ne (ne_of_gt (by linarith))
    have hLconst : ∀ x ∈ g.filter
        (fun a => (!decide (pi < nodeTheta a)) && decide (nodeRho a = rho)),
        (spaceTheta ∘ rescaleRow pi g) x
          = dt * (((gridRhos g).count rho : K)
              / (((gridRhos g).count rho : K)
                  - ((gridDelRhos pi g).count rho : K))) := by
      intro x hx
      have hxg := (List.mem_filter.mp hx).1
      have hxP := (List.mem_filter.mp hx).2
      simp only [Bool.and_eq_true, Bool.not_eq_true', decide_eq_true_eq,
        decide_eq_false_iff_not] at hxP
      have hrho : nodeRho x = rho := hxP.2
      have hdt : x.2.2.1 = dt := huni x hxg hrho
      show spaceTheta (rescaleRow pi g x) = _
      simp only [rescaleRow, spaceTheta, hrho, hdt]
    have hRconst : ∀ x ∈ g.filter (fun p => decide (nodeRho p = rho)),
        spaceTheta x = dt := by
      intro x hx
      exact huni x (List.mem_filter.mp hx).1
        (of_decide_eq_true (List.mem_filter.mp hx).2)
    rw [sum_map_const _ _ _ hLconst, sum_map_const _ _ _ hRconst]
    -- lengths: survivors = k - d
    have hsplit := length_filter_split g
      (fun p => decide (nodeRho p = rho)) (fun p => decide (pi < nodeTheta p))
    have hdel : (g.filter (fun p =>
        decide (nodeRho p = rho) && decide (pi < nodeTheta p))).length
          = (gridDelRhos pi g).count rho := by
      rw [show gridDelRhos pi g
            = (g.filter (fun p => decide (pi < nodeTheta p))).map nodeRho
          from rfl,
        count_map_eq_length_filter, filter_filter_and]
      exact congrArg List.length (List.filter_congr
        (fun a _ => Bool.and_comm _ _))
    have hsurv : (g.filter (fun a =>
        (!decide (pi < nodeTheta a)) && decide (nodeRho a = rho))).length
          = (g.filter (fun p => decide (nodeRho p = rho) &&
              !decide (pi < nodeTheta p))).length :=
      congrArg List.length (List.filter_congr
        (fun a _ => Bool.and_comm _ _))
    have hkNat : (g.filter (fun p => decide (nodeRho p = rho))).length
        = (gridRhos g).count rho :=
      (count_map_eq_length_filter g nodeRho rho).symm
    have hlen : ((g.filter (fun a =>
        (!decide (pi < nodeTheta a)) && decide (nodeRho a = rho))).length : K)
          = ((gridRhos g).count rho : K)
            - ((gridDelRhos pi g).count rho : K) := by
      rw [hsurv]
      rw [hkNat, hdel] at hsplit
      have : (g.filter (fun p => decide (nodeRho p = rho) &&
          !decide (pi < nodeTheta p))).length
            = (gridRhos g).count rho - (gridDelRhos pi g).count rho := by
        omega
      rw [this]
      have hle : (gridDelRhos pi g).count rho ≤ (gridRhos g).count rho :=
        le_of_lt hlt
      push_cast [hle]
      ring
    rw [hlen, hkNat]
    field_simp
    ring

/-- C7 counterexample: on a symmetric grid whose three rho surfaces
include exactly one with a `theta > pi` node, the claim says the node is
removed and the ring weights rescaled; instead the prepended zero leaves a
deletion-count vector of length 2 against 3 surfaces, the numpy broadcast
fails, and `_enforce_symmetry` raises a ValueError (modelled as `none`). -/
theorem C7_counterexample :
    (c7badGrid.filter (fun p => decide ((3 : ℚ) < nodeTheta p))).length = 1
    ∧ enforceSymmetry (3 : ℚ) true c7badGrid = none := by
  constructor
  · norm_num [c7badGrid, nodeTheta, List.filter_cons]
  · norm_num [enforceSymmetry, c7badGrid, gridRhos, gridDelRhos,
      uniqueSorted, insertUnique, nodeRho, nodeTheta, List.filter_cons,
      List.count_cons]

/-- C7 witness: on a concrete aligned grid (both rho surfaces carry a
`theta > pi` node) `_enforce_symmetry` deletes exactly those nodes and
doubles the theta spacing of the survivors (both surfaces keep 1 of 2
nodes, so the scale is 2/(2-1)). -/
theorem C7_enforce_symmetry_witness :
    enforceSymmetry (3 : ℚ) true c7goodGrid
      = some [((0, 1, 0), (1, 2, 1)), ((1, 1, 0), (1, 2, 1))] := by
  have halign : uniqueSorted (gridDelRhos (3 : ℚ) c7goodGrid)
      = uniqueSorted (gridRhos c7goodGrid) := by
    norm_num [c7goodGrid, gridDelRhos, gridRhos, uniqueSorted, insertUnique,
      nodeRho, nodeTheta, List.filter_cons]
  have h := (C7_enforce_symmetry (3 : ℚ) c7goodGrid halign).1
  rw [h]
  norm_num [c7goodGrid, rescaleRow, gridRhos, gridDelRhos, nodeRho,
    nodeTheta, nodeZeta, List.filter_cons, List.count_cons]

end DescSpec

